import Mathlib

/-!
Verification development for the terminal-automation agent runtime
(MCP client `client.py`, policy engine `policy.py`, planner `planner.py`,
agent facade `agent.py`, self-correcting executor `agentic_loop.py`).

Shallow embedding conventions:
* Python values flowing through the client and agent are modelled by `PyVal`,
  with Python truthiness as `pyTruthy`.
* Python dicts keyed by strings are modelled by association lists; `dset`
  overwrites, `dfind` looks up the most recent binding.
* Python strings are `String`; the substring test `a in b` is `pyIn a b`.
* `time.time()` is modelled by a `Nat` timestamp supplied per operation, and
  the elapsed-time reads inside the retry loop of `read_resource` by an
  oracle `elapsed : Nat -> Nat` (elapsed seconds at the start of an attempt).
* External behaviour (the MCP transport, the LLM oracle) is modelled by
  oracle functions indexed by a dispatch counter carried in the state.
-/

namespace S2P

/-- Model of a Python value (flat JSON-ish data plus opaque objects). -/
inductive PyVal where
  | pynone
  | pybool (b : Bool)
  | pyint (n : Int)
  | pystr (s : String)
  | pylist (l : List PyVal)
  | pydict (l : List (String × PyVal))
  | pyobj (fields : List (String × PyVal))

/-- Python truthiness (`if x:`). Objects without `__bool__` are truthy. -/
def pyTruthy : PyVal → Bool
  | .pynone => false
  | .pybool b => b
  | .pyint n => n != 0
  | .pystr s => s != ""
  | .pylist l => !l.isEmpty
  | .pydict l => !l.isEmpty
  | .pyobj _ => true

/-- `d.get(k)` on a dict modelled as an association list (first binding wins,
matching the overwrite discipline of `dset`). -/
def dfind {α : Type} (m : List (String × α)) (k : String) : Option α :=
  (m.find? (fun p => p.1 = k)).map Prod.snd

/-- `d[k] = v`: overwrite binding for `k`. -/
def dset {α : Type} (m : List (String × α)) (k : String) (v : α) :
    List (String × α) :=
  (k, v) :: m.filter (fun p => p.1 ≠ k)

/-- `d.pop(k, None)`: remove the binding for `k`. -/
def dpop {α : Type} (m : List (String × α)) (k : String) :
    List (String × α) :=
  m.filter (fun p => p.1 ≠ k)

/-- `d.get(k, 0)` for counters. -/
def dgetNat (m : List (String × Nat)) (k : String) : Nat :=
  (dfind m k).getD 0

/-- `d.get(k, "")`: how `policy.py` reads string arguments out of a payload. -/
def aget (m : List (String × String)) (k : String) : String :=
  (dfind m k).getD ""

/-- Python substring test `needle in hay` on character lists. -/
def subList (needle : List Char) : List Char → Bool
  | [] => needle.isEmpty
  | c :: rest => needle.isPrefixOf (c :: rest) || subList needle rest

/-- Python substring test `needle in hay` on strings. -/
def pyIn (needle hay : String) : Bool :=
  subList needle.data hay.data

/-- Python `s.lower()` (character-list implementation so that the kernel can
evaluate it). -/
def lowerStr (s : String) : String :=
  ⟨s.data.map Char.toLower⟩

/-- Python `s.startswith(pre)` (character-list implementation). -/
def swStr (pre s : String) : Bool :=
  pre.data.isPrefixOf s.data

example : pyIn "rm -rf" "echo rm -rf /tmp" = true := by decide
example : pyIn "/dev/null" "echo hi > /dev/null" = true := by decide
example : pyIn "/dev/null" "echo hi" = false := by decide

-- =====================================================================
-- policy.py
-- =====================================================================

/-- `PolicyDecision.ALLOW` (`policy.py`): decisions are plain strings. -/
def PolicyDecision.ALLOW : String := "allow"

/-- `PolicyDecision.DENY`. -/
def PolicyDecision.DENY : String := "deny"

/-- `PolicyDecision.DRY_RUN`. -/
def PolicyDecision.DRY_RUN : String := "dry_run"

/-- The payload dict handed to `PolicyEngine.evaluate`. The engine reads
`payload.get("name")` and `payload.get("arguments", {})`; the resource gate
passes `{"uri": uri}` instead, hence all fields optional with Python-style
defaults. -/
structure Payload where
  name : Option String := none
  arguments : List (String × String) := []
  uri : Option String := none

/-- `PolicyEngine.__init__`: `self.blocked_commands` (a set; order is
irrelevant since every match returns DENY). -/
def blocked_commands : List String :=
  ["rm -rf /", "shutdown", "reboot", "mkfs", "dd if=/dev/zero",
   "chmod 777 /", "chown -R"]

/-- `PolicyEngine.__init__`: `self.dangerous_patterns`. -/
def dangerous_patterns : List String :=
  ["rm -rf", "/dev/sda", "/dev/null", ">/dev/sda"]

/-- `PolicyEngine.evaluate`: the set of mutating tools used by dry-run mode. -/
def mutating_tools : List String :=
  ["run_command", "interactive_command", "write_file", "replace_in_file",
   "kill_process", "git_commit"]

/-- `PolicyEngine` carries only the `dry_run` flag. -/
structure PolicyEngine where
  dry_run : Bool

/-- Shallow embedding of `PolicyEngine.evaluate` (`policy.py`). Sequential
early-return rules are rendered as a chain of conditionals; rules that
return the same decision are grouped with disjunction, which preserves the
function. The soft safety rules of the source are no-ops and are omitted. -/
def PolicyEngine.evaluate (e : PolicyEngine) (action_type : String)
    (p : Payload) : String :=
  let cmd := lowerStr (aget p.arguments "command")
  if action_type == "tool"
      && (p.name == some "run_command" || p.name == some "interactive_command")
      && (blocked_commands.any (fun b => pyIn b cmd)
           || dangerous_patterns.any (fun b => pyIn b cmd)) then
    PolicyDecision.DENY
  else if action_type == "tool" && p.name == some "git_commit"
      && (pyIn "--force" (aget p.arguments "message")
           || pyIn "-f" (aget p.arguments "message")) then
    PolicyDecision.DENY
  else if action_type == "tool" && p.name == some "write_file"
      && ((swStr "/" (aget p.arguments "path")
             && !(swStr "/home" (aget p.arguments "path")))
           || pyIn ".." (aget p.arguments "path")
           || ["/etc/", "/sys/", "/proc/", "/boot/"].any
                (fun pre => swStr pre (aget p.arguments "path"))) then
    PolicyDecision.DENY
  else if action_type == "tool" && p.name == some "kill_process"
      && (aget p.arguments "process_id" == ""
           || aget p.arguments "process_id" == "1") then
    PolicyDecision.DENY
  else if e.dry_run && action_type == "tool"
      && (match p.name with
          | some n => mutating_tools.contains n
          | none => false) then
    PolicyDecision.DRY_RUN
  else
    PolicyDecision.ALLOW

example :
    PolicyEngine.evaluate ⟨false⟩ "tool"
      { name := some "run_command",
        arguments := [("command", "rm -rf /")] } = PolicyDecision.DENY := by
  decide

example :
    PolicyEngine.evaluate ⟨false⟩ "tool"
      { name := some "run_command",
        arguments := [("command", "echo hi > /dev/null")] } =
      PolicyDecision.DENY := by decide

example :
    PolicyEngine.evaluate ⟨false⟩ "tool"
      { name := some "list_directory",
        arguments := [("path", ".")] } = PolicyDecision.ALLOW := by decide

example :
    PolicyEngine.evaluate ⟨true⟩ "tool"
      { name := some "write_file",
        arguments := [("path", "a.txt"), ("content", "x")] } =
      PolicyDecision.DRY_RUN := by decide

-- =====================================================================
-- config.py (the values imported by client.py; config.py rebinds
-- MAX_RETRIES from 2 to 3 and MAX_CONTEXT_ITEMS from 10 to 50 further
-- down the module, so the effective values are the later ones)
-- =====================================================================

/-- `config.MAX_RETRIES` (effective value: the later binding, 3). -/
def MAX_RETRIES : Nat := 3

/-- `config.RESOURCE_TIMEOUT_SECONDS`. -/
def RESOURCE_TIMEOUT_SECONDS : Nat := 10

/-- `config.FAILURE_THRESHOLD`. -/
def FAILURE_THRESHOLD : Nat := 3

/-- `config.CIRCUIT_BREAKER_COOLDOWN`. -/
def CIRCUIT_BREAKER_COOLDOWN : Nat := 10

/-- `config.MAX_CONTEXT_ITEMS` (effective value: the later binding, 50). -/
def MAX_CONTEXT_ITEMS : Nat := 50

/-- `config.ENABLE_CACHE`. -/
def ENABLE_CACHE : Bool := true

/-- `config.ALLOWED_TOOLS.get(server, set())`. -/
def ALLOWED_TOOLS (server : String) : List String :=
  if server == "terminal" then
    ["run_command", "interactive_command", "read_file", "write_file",
     "list_directory", "search_files", "replace_in_file", "list_processes",
     "kill_process", "get_env", "system_info", "git_status", "git_diff",
     "git_commit", "tail_file", "check_port", "docker_ps",
     "analyze_code_quality", "detect_security_issues",
     "profile_code_performance", "analyze_project_structure",
     "detect_circular_dependencies", "generate_dependency_graph",
     "trace_execution", "analyze_error_logs", "compare_outputs",
     "generate_unit_tests", "run_tests_with_coverage", "detect_test_gaps",
     "trace_error_origin", "find_breaking_change", "refactor_function_name",
     "inspect_running_process", "detect_memory_leaks", "undo_last_action",
     "run_command_sandboxed", "backup_before_operation", "clear_cache",
     "ai_code_review", "generate_docs", "semantic_code_search",
     "list_directory_contents"]
  else []

/-- `config.ALLOWED_RESOURCES.get(server, set())`. -/
def ALLOWED_RESOURCES (server : String) : List String :=
  if server == "terminal" then
    ["workspace://tree", "workspace://summary", "system://info",
     "system://env", "system://disk", "system://processes",
     "terminal://history", "git://status", "git://diff", "git://log",
     "logs://app", "logs://errors", "session://cwd", "session://tasks",
     "project://complexity", "project://dependencies",
     "project://test-coverage", "monitor://cpu", "monitor://memory",
     "monitor://file-changes", "monitor://disk",
     "metrics://tool-performance", "cache://stats"]
  else []

/-- `config.ALLOWED_PROMPTS.get(server, set())`. -/
def ALLOWED_PROMPTS (server : String) : List String :=
  if server == "terminal" then
    ["terminal_system_prompt", "terminal_command_planning_prompt",
     "terminal_resource_usage_prompt", "terminal_execution_rules_prompt",
     "terminal_debugging_prompt", "terminal_long_running_prompt",
     "terminal_safety_prompt", "terminal_response_style_prompt"]
  else []

-- =====================================================================
-- client.py : MCPAppClient
-- =====================================================================

/-- `MCPAppClient._is_tool_allowed`. -/
def isToolAllowed (server tool : String) : Bool :=
  (ALLOWED_TOOLS server).contains tool

/-- `MCPAppClient._is_resource_allowed`: direct match against the allow-set,
then the blanket `file://` case (the source allows every `file://` URI,
deferring validation to the server), else `False`. -/
def isResourceAllowed (server uri : String) : Bool :=
  if (ALLOWED_RESOURCES server).contains uri then true
  else if swStr "file://" uri then true
  else false

/-- `MCPAppClient._is_prompt_allowed`. -/
def isPromptAllowed (server prompt : String) : Bool :=
  (ALLOWED_PROMPTS server).contains prompt

/-- Sorted key list of an argument dict: `sorted(args.keys())`, the order in
which `json.dumps(args, sort_keys=True)` emits entries. -/
def sortedKeys (args : List (String × String)) : List String :=
  (args.map Prod.fst).insertionSort (fun a b => a ≤ b)

/-- Canonical entry list of an argument dict under `sort_keys=True`. -/
def canonArgs (args : List (String × String)) : List (String × String) :=
  (sortedKeys args).map (fun k => (k, aget args k))

/-- `json.dumps(args, sort_keys=True)` for a flat string-valued dict
(`None` prints as `null`). The exact text only matters through equality of
keys, which the canonical entry list determines. -/
def dumpArgs : Option (List (String × String)) → String
  | none => "null"
  | some args =>
      "\x7b" ++ String.intercalate ", "
        ((canonArgs args).map
          (fun kv => "\x22" ++ kv.1 ++ "\x22: \x22" ++ kv.2 ++ "\x22"))
      ++ "\x7d"

/-- `MCPAppClient._cache_key`. -/
def cacheKey (kind server name : String)
    (args : Option (List (String × String))) : String :=
  kind ++ ":" ++ server ++ ":" ++ name ++ ":" ++ dumpArgs args

/-- Events observable on the client. `policyEval` is never emitted by any
client operation: `client.py` neither imports nor references the policy
engine; the constructor exists so that absence is expressible. -/
inductive CEvent where
  | policyEval (action_type : String)
  | transportDispatch (kind name : String)

/-- Runtime state of `MCPAppClient` (the fields touched by the embedded
operations, plus the ghost event log and transport dispatch counter). -/
structure CState where
  cache : List (String × PyVal) := []
  failureCount : List (String × Nat) := []
  circuitOpenUntil : List (String × Nat) := []
  contextBuffer : List PyVal := []
  events : List CEvent := []
  dispatchCount : Nat := 0
  cancelled : Bool := false

/-- Outcome of one raw transport attempt, as seen by the `except` clauses. -/
inductive TRes where
  | ok (v : PyVal)
  | permE (msg : String)
  | timeoutE
  | exc (msg : String)

/-- External environment of the client: the transport oracle (indexed by the
global dispatch counter) and the elapsed-clock oracle used by the timeout
check in `read_resource` (indexed by attempt number). -/
structure CEnv where
  transport : Nat → TRes
  elapsed : Nat → Nat := fun _ => 0
  reprF : PyVal → String := fun _ => ""
  llm : PyVal → String := fun _ => ""

/-- Exceptions that can escape a client operation. -/
inductive CErr where
  | permissionErr (msg : String)
  | timeoutErr
  | resourceReadErr (msg : String)
  | toolExecErr (msg : String)
  | cancelledRuntimeErr
  | otherErr (msg : String)

/-- `MCPAppClient._get_cached`. -/
def getCached (st : CState) (key : String) : Option PyVal :=
  if ENABLE_CACHE then dfind st.cache key else none

/-- `MCPAppClient._set_cache`. -/
def setCache (st : CState) (key : String) (v : PyVal) : CState :=
  if ENABLE_CACHE then { st with cache := dset st.cache key v } else st

/-- `MCPAppClient._check_circuit`: raises iff the stored timestamp is truthy
and strictly in the future. -/
def circuitOpen (st : CState) (key : String) (now : Nat) : Bool :=
  match dfind st.circuitOpenUntil key with
  | some u => u != 0 && now < u
  | none => false

/-- `MCPAppClient._record_failure`. -/
def recordFailure (st : CState) (key : String) (now : Nat) : CState :=
  let n := dgetNat st.failureCount key + 1
  let st := { st with failureCount := dset st.failureCount key n }
  let u := dset st.circuitOpenUntil key (now + CIRCUIT_BREAKER_COOLDOWN)
  if n ≥ FAILURE_THRESHOLD then { st with circuitOpenUntil := u }
  else st

/-- `MCPAppClient._record_success`. -/
def recordSuccess (st : CState) (key : String) : CState :=
  { st with failureCount := dset st.failureCount key 0,
            circuitOpenUntil := dpop st.circuitOpenUntil key }

/-- `MCPAppClient._add_to_context`: bounded FIFO buffer. -/
def addToContext (st : CState) (item : PyVal) : CState :=
  let buf := st.contextBuffer ++ [item]
  if buf.length > MAX_CONTEXT_ITEMS then { st with contextBuffer := buf.drop 1 }
  else { st with contextBuffer := buf }

/-- Ghost helper: consume the next transport oracle value. -/
def dispatchStep (st : CState) (kind name : String) : CState :=
  { st with events := st.events ++ [.transportDispatch kind name],
            dispatchCount := st.dispatchCount + 1 }

/-- The `for attempt in range(MAX_RETRIES + 1)` body of
`MCPAppClient.call_tool`; `n` counts the attempts still available, so `n = 1`
is the `attempt == MAX_RETRIES` case. `PermissionError` is re-raised; every
other exception (including `TimeoutError`, which `call_tool` does not single
out) records a failure and retries. Python would fall off the loop and
return `None` only if it had zero iterations, hence the `Option` result. -/
def callToolLoop (env : CEnv) (now : Nat) (key name : String) :
    Nat → CState → Except CErr (Option PyVal) × CState
  | 0, st => (.ok none, st)
  | n + 1, st =>
      let i := st.dispatchCount
      let st := dispatchStep st "tool" name
      match env.transport i with
      | .ok v =>
          let st := recordSuccess st key
          let st := setCache st key v
          let st := addToContext st
            (.pydict [("type", .pystr "tool"), ("name", .pystr name),
                      ("result", v)])
          (.ok (some v), st)
      | .permE msg => (.error (.permissionErr msg), st)
      | .timeoutE =>
          let st := recordFailure st key now
          if n = 0 then (.error (.toolExecErr "Resource read timeout"), st)
          else callToolLoop env now key name n st
      | .exc msg =>
          let st := recordFailure st key now
          if n = 0 then (.error (.toolExecErr msg), st)
          else callToolLoop env now key name n st

/-- `MCPAppClient.call_tool` (client.py lines 285-315): cancellation check,
allow-list gate, circuit check, truthy cache hit, then the retry loop. -/
def callTool (env : CEnv) (now : Nat) (st : CState) (server name : String)
    (arguments : List (String × String)) :
    Except CErr (Option PyVal) × CState :=
  if st.cancelled then (.error .cancelledRuntimeErr, st)
  else if !isToolAllowed server name then
    (.error (.permissionErr ("Tool not allowed: " ++ name)), st)
  else
    let key := cacheKey "tool" server name (some arguments)
    if circuitOpen st key now then
      (.error (.resourceReadErr "Circuit breaker open"), st)
    else
      match getCached st key with
      | some v =>
          if pyTruthy v then (.ok (some v), st)
          else callToolLoop env now key name (MAX_RETRIES + 1) st
      | none => callToolLoop env now key name (MAX_RETRIES + 1) st

/-- The retry loop of `MCPAppClient.read_resource`: the timeout check runs
before the transport attempt and raises `TimeoutError`, which (like
`PermissionError`) is re-raised rather than retried. `attempt` is the
0-based attempt index feeding the elapsed-clock oracle. -/
def readResourceLoop (env : CEnv) (now : Nat) (key uri : String) :
    Nat → Nat → CState → Except CErr (Option PyVal) × CState
  | _, 0, st => (.ok none, st)
  | attempt, n + 1, st =>
      if env.elapsed attempt > RESOURCE_TIMEOUT_SECONDS then
        (.error .timeoutErr, st)
      else
        let i := st.dispatchCount
        let st := dispatchStep st "resource" uri
        match env.transport i with
        | .ok v =>
            let st := recordSuccess st key
            let st := setCache st key v
            let st := addToContext st
              (.pydict [("type", .pystr "resource"), ("uri", .pystr uri),
                        ("result", v)])
            (.ok (some v), st)
        | .permE msg => (.error (.permissionErr msg), st)
        | .timeoutE => (.error .timeoutErr, st)
        | .exc msg =>
            let st := recordFailure st key now
            if n = 0 then (.error (.resourceReadErr msg), st)
            else readResourceLoop env now key uri (attempt + 1) n st

/-- `MCPAppClient.read_resource` (client.py lines 243-279). -/
def readResource (env : CEnv) (now : Nat) (st : CState)
    (server uri : String) : Except CErr (Option PyVal) × CState :=
  if st.cancelled then (.error .cancelledRuntimeErr, st)
  else if !isResourceAllowed server uri then
    (.error (.permissionErr ("Resource not allowed: " ++ uri)), st)
  else
    let key := cacheKey "resource" server uri none
    if circuitOpen st key now then
      (.error (.resourceReadErr "Circuit breaker open"), st)
    else
      match getCached st key with
      | some v =>
          if pyTruthy v then (.ok (some v), st)
          else readResourceLoop env now key uri 0 (MAX_RETRIES + 1) st
      | none => readResourceLoop env now key uri 0 (MAX_RETRIES + 1) st

/-- Template fetch, LLM call and cache write of `get_prompt` (no retry and
no try/except, so any transport exception escapes with its own type;
`str()` and `run_llm` are oracles of the environment). -/
def getPromptFetch (env : CEnv) (st : CState) (key name : String) :
    Except CErr PyVal × CState :=
  let i := st.dispatchCount
  let st := dispatchStep st "prompt" name
  match env.transport i with
  | .permE msg => (.error (.permissionErr msg), st)
  | .timeoutE => (.error .timeoutErr, st)
  | .exc msg => (.error (.otherErr msg), st)
  | .ok v =>
      let prompt_text : PyVal :=
        match v with
        | .pylist (raw :: _) =>
            match raw with
            | .pydict d => (dfind d "content").getD (.pystr (env.reprF raw))
            | _ => .pystr (env.reprF raw)
        | _ => .pystr (env.reprF v)
      let response : PyVal := .pystr (env.llm prompt_text)
      let st := setCache st key response
      let st := addToContext st
        (.pydict [("type", .pystr "prompt"), ("name", .pystr name),
                  ("response", response)])
      (.ok response, st)

/-- `MCPAppClient.get_prompt` (client.py lines 321-349): cancellation check,
allow-list gate, truthy cache hit, then `getPromptFetch`. -/
def getPrompt (env : CEnv) (st : CState) (server name : String)
    (arguments : List (String × String)) : Except CErr PyVal × CState :=
  if st.cancelled then (.error .cancelledRuntimeErr, st)
  else if !isPromptAllowed server name then
    (.error (.permissionErr ("Prompt not allowed: " ++ name)), st)
  else
    let key := cacheKey "prompt" server name (some arguments)
    match getCached st key with
    | some v =>
        if pyTruthy v then (.ok v, st)
        else getPromptFetch env st key name
    | none => getPromptFetch env st key name

-- =====================================================================
-- planner.py : SubTask / TaskPlan
-- =====================================================================

/-- `planner.SubTask`. The mutable `status` / `result` / `error` fields are
not read by any embedded operation and are omitted; `rollback_action` is
used only by the rollback manager, outside the claims. -/
structure SubTask where
  id : String
  description : String := ""
  tool_name : String
  arguments : List (String × String) := []
  dependencies : List String := []

/-- `TaskPlan.get_task`: first subtask with the given id, if any. -/
def getTask (ts : List SubTask) (tid : String) : Option SubTask :=
  ts.find? (fun t => t.id == tid)

/-- Dependencies of the first subtask with a given id (`has_cycle` skips
ids without a task: `if task:`). -/
def depsOf (ts : List SubTask) (tid : String) : List String :=
  match getTask ts tid with
  | some t => t.dependencies
  | none => []

/-- The dict comprehension seeding `in_degree` in
`TaskPlan.compute_execution_order`; a later subtask with the same id
overwrites the earlier entry, exactly as in a Python dict comprehension.
Values are integers because the loop can drive them negative. -/
def initInDegree (ts : List SubTask) : List (String × Int) :=
  ts.foldl (fun m t => dset m t.id (t.dependencies.length : Int)) []

/-- `in_degree[id]` (every queried id is a key, so the default is inert). -/
def degOf (m : List (String × Int)) (k : String) : Int :=
  (dfind m k).getD 0

/-- The body of `while queue:` in `compute_execution_order`: pop the head,
append it to the order, then scan all subtasks, decrementing the in-degree
of each subtask listing the popped id and enqueueing it when the decrement
lands exactly on zero. `fuel` bounds the number of pops; a fuel of
`2 * |subtasks| + 1` is never exhausted, because queue insertions are
bounded by the seed insertions (at most one per subtask) plus the
exact-zero hits (at most one per id, since in-degrees strictly decrease). -/
def kahnLoop (ts : List SubTask) :
    Nat → List String → List (String × Int) → List String → List String
  | 0, _, _, order => order
  | _ + 1, [], _, order => order
  | fuel + 1, tid :: queue, deg, order =>
      let step := ts.foldl
        (fun (p : List (String × Int) × List String) t =>
          if t.dependencies.contains tid then
            let d := degOf p.1 t.id - 1
            let m := dset p.1 t.id d
            if d = 0 then (m, p.2 ++ [t.id]) else (m, p.2)
          else p)
        (deg, queue)
      kahnLoop ts fuel step.2 step.1 (order ++ [tid])

/-- `TaskPlan.compute_execution_order` (planner.py lines 157-174). -/
def computeExecutionOrder (ts : List SubTask) : List String :=
  let deg := initInDegree ts
  let queue := (ts.filter (fun t => degOf deg t.id = 0)).map (fun t => t.id)
  kahnLoop ts (2 * ts.length + 1) queue deg []

/-- The `for dep_id in task.dependencies:` loop of `has_cycle`, parametric
in the recursive visit (`recur`), threading the shared `visited` and
`rec_stack` sets and short-circuiting on the first cycle. -/
def cycleDeps
    (recur : String → List String → List String →
      Bool × List String × List String) :
    List String → List String → List String →
    Bool × List String × List String
  | [], v, r => (false, v, r)
  | dep :: rest, v, r =>
      if !v.contains dep then
        let res := recur dep v r
        if res.1 then res else cycleDeps recur rest res.2.1 res.2.2
      else if r.contains dep then (true, v, r)
      else cycleDeps recur rest v r

/-- `has_cycle(task_id)` inside `TaskPlan._has_circular_dependencies`:
depth-first search threading the shared `visited` and `rec_stack` sets
(modelled as duplicate-free lists; every call site guarantees the node is
unvisited, so additions never duplicate). On an early `return True` the
stacks are left as-is, exactly like the source. `fuel` bounds recursion
depth; `|subtasks| + 1` suffices since each call consumes an unvisited id. -/
def hasCycleFrom (ts : List SubTask) :
    Nat → String → List String → List String → Bool × List String × List String
  | 0, _, v, r => (false, v, r)
  | fuel + 1, tid, v, r =>
      let res := cycleDeps (fun d v r => hasCycleFrom ts fuel d v r)
        (depsOf ts tid) (v ++ [tid]) (r ++ [tid])
      if res.1 then res
      else (false, res.2.1, res.2.2.erase tid)

/-- `TaskPlan._has_circular_dependencies`: run `has_cycle` from every
not-yet-visited subtask, short-circuiting on the first cycle. Whenever the
accumulated answer is still `False`, the shared `rec_stack` is empty again
(each completed call removes its own id), so a fresh empty stack per
top-level call is faithful. -/
def hasCircular (ts : List SubTask) : Bool :=
  (ts.foldl
    (fun (acc : Bool × List String) t =>
      if acc.1 then acc
      else if !acc.2.contains t.id then
        let res := hasCycleFrom ts (ts.length + 1) t.id acc.2 []
        (res.1, res.2.1)
      else acc)
    (false, [])).1

/-- The `for task_id in self.execution_order:` loop of
`TaskPlan._validate_execution_order`: each listed id must name a task and
have all its dependencies among the previously listed ids. -/
def validateOrderAux (ts : List SubTask) :
    List String → List String → Bool
  | _, [] => true
  | completed, tid :: rest =>
      match getTask ts tid with
      | none => false
      | some t =>
          t.dependencies.all (fun d => completed.contains d)
            && validateOrderAux ts (completed ++ [tid]) rest

/-- `TaskPlan._validate_execution_order` (planner.py lines 140-155). -/
def validateExecutionOrder (ts : List SubTask) (order : List String) : Bool :=
  validateOrderAux ts [] order

/-- `TaskPlan.validate_with_tools` (planner.py lines 82-110): four checks
accumulating `validation_errors` in source order. -/
def validateWithTools (ts : List SubTask) (order : List String)
    (valid_tools : List String) : List String :=
  let e1 := ts.filterMap (fun t =>
    if !valid_tools.contains t.tool_name then
      some ("Task " ++ t.id ++ ": Invalid tool " ++ t.tool_name)
    else none)
  let e2 := if hasCircular ts then
      ["Circular dependency detected in task plan"] else []
  let ids := ts.map (fun t => t.id)
  let e3 := (ts.map (fun t =>
    t.dependencies.filterMap (fun d =>
      if !ids.contains d then
        some ("Task " ++ t.id ++ ": Unknown dependency " ++ d)
      else none))).flatten
  let e4 := if validateExecutionOrder ts order then [] else
      ["Invalid execution order - dependencies not satisfied"]
  e1 ++ e2 ++ e3 ++ e4

/-- The validated plan produced by `HierarchicalPlanner.decompose_task` on a
parsed subtask list: the source computes `plan.compute_execution_order()`
and then `plan.validate_with_tools(valid_tools)`; since the subtask list is
parsed from free-form LLM output, every list of subtasks is producible. -/
structure TaskPlan where
  goal : String := ""
  subtasks : List SubTask
  execution_order : List String
  validation_errors : List String

/-- Build the plan as `decompose_task` does from parsed subtasks. -/
def mkPlan (goal : String) (ts : List SubTask) (valid_tools : List String) :
    TaskPlan :=
  let order := computeExecutionOrder ts
  { goal := goal, subtasks := ts, execution_order := order,
    validation_errors := validateWithTools ts order valid_tools }

-- =====================================================================
-- agent.py : TerminalAgent policy gates and the execution loop of answer()
-- =====================================================================

/-- `TerminalAgent._gate_tool` (agent.py lines 85-93): evaluate the policy
once; DENY raises `PermissionError`, otherwise return whether the decision
is not DRY_RUN (the caller skips the task on `False`). -/
def gateTool (pe : PolicyEngine) (name : String)
    (arguments : List (String × String)) : Except String Bool :=
  let decision := pe.evaluate "tool" { name := some name,
                                       arguments := arguments }
  if decision == PolicyDecision.DENY then
    .error ("Policy denied: " ++ name)
  else
    .ok (decision != PolicyDecision.DRY_RUN)

/-- `TerminalAgent._gate_resource` (agent.py lines 75-83). -/
def gateResource (pe : PolicyEngine) (uri : String) : Except String Bool :=
  let decision := pe.evaluate "resource" { uri := some uri }
  if decision == PolicyDecision.DENY then
    .error ("Policy denied: " ++ uri)
  else
    .ok (decision != PolicyDecision.DRY_RUN)

/-- One record of the `execution_results` list built by
`TerminalAgent.answer`: `{"task_id", "tool", "success", "result"}`. The
stored success field is the raw `result.get("success", False)` value. -/
structure ExecEntry where
  task_id : String
  tool : String
  successV : PyVal
  result : PyVal

/-- `result.get("success", False)` of a tool result. -/
def successOf (r : PyVal) : PyVal :=
  match r with
  | .pydict l => (dfind l "success").getD (.pybool false)
  | _ => .pybool false

/-- The dependency check of `TerminalAgent.answer`: every dependency id must
have a truthy-success entry in the running results list. -/
def depsComplete (results : List ExecEntry) (t : SubTask) : Bool :=
  t.dependencies.all (fun dep =>
    results.any (fun r => r.task_id == dep && pyTruthy r.successV))

/-- Ghost trace of the execution loop: one step per processed subtask, in
processing order. `dispatched` records the results list at dispatch time. -/
inductive GhostStep where
  | skipDeps (id : String)
  | skipPolicy (id : String)
  | dispatched (t : SubTask) (prior : List ExecEntry)

/-- Task id of a ghost step. -/
def GhostStep.taskId : GhostStep → String
  | .skipDeps i => i
  | .skipPolicy i => i
  | .dispatched t _ => t.id

/-- Environment of the execution loop: the outcome of
`SelfCorrectingAgent.act_with_retry` for the i-th dispatched task (already
normalised to a result value), and `_enhance_arguments_with_results`
modelled opaquely (it rewrites `write_file` contents and affects neither
gating, dispatch order nor success decoding). -/
structure AEnv where
  dispatch : Nat → PyVal
  enhance : SubTask → List ExecEntry → List (String × String) :=
    fun t _ => t.arguments

/-- The `for task in task_plan.subtasks:` loop of `TerminalAgent.answer`
(agent.py lines 251-296). Note the iteration is over `subtasks` in list
order, not over the precomputed `execution_order`. Unmet dependencies skip
the task; the policy gate is evaluated on the original `task.arguments`; a
DENY decision raises `PermissionError`, which nothing in `answer()`
catches, so the loop aborts with that error. A gate value of `False`
(a DRY_RUN decision) skips the task with the misleading message
`Skipping ... - policy denied`. On dispatch, an `execution_results` entry
is appended. -/
def runPlanAux (pe : PolicyEngine) (env : AEnv) :
    List SubTask → List ExecEntry → Nat → List GhostStep →
    Except String (List ExecEntry) × List GhostStep × Nat
  | [], results, dc, log => (.ok results, log, dc)
  | t :: rest, results, dc, log =>
      if !depsComplete results t then
        runPlanAux pe env rest results dc (log ++ [.skipDeps t.id])
      else
        let _enhanced := env.enhance t results
        match gateTool pe t.tool_name t.arguments with
        | .error msg => (.error msg, log, dc)
        | .ok false =>
            runPlanAux pe env rest results dc (log ++ [.skipPolicy t.id])
        | .ok true =>
            let r := env.dispatch dc
            let entry : ExecEntry :=
              { task_id := t.id, tool := t.tool_name,
                successV := successOf r, result := r }
            runPlanAux pe env rest (results ++ [entry]) (dc + 1)
              (log ++ [.dispatched t results])

/-- Execution phase of `TerminalAgent.answer` on a plan, from an empty
results list. -/
def runPlan (pe : PolicyEngine) (env : AEnv) (ts : List SubTask) :
    Except String (List ExecEntry) × List GhostStep × Nat :=
  runPlanAux pe env ts [] 0 []

/-- Ids of the dispatched steps of a ghost trace, in dispatch order. -/
def dispatchedIds (log : List GhostStep) : List String :=
  log.filterMap (fun g =>
    match g with
    | .dispatched t _ => some t.id
    | _ => none)

-- =====================================================================
-- agentic_loop.py : SelfCorrectingAgent.act_with_retry
-- =====================================================================

/-- One suggested action of a `Reflection`: `suggested.get("tool",
current_tool)` keeps the current tool when absent, while
`suggested.get("arguments", {})` defaults to the empty dict. -/
structure Suggestion where
  tool : Option String := none
  arguments : Option (List (String × String)) := none

/-- The only part of a `Reflection` that `act_with_retry` consumes. -/
structure ReflectionM where
  suggested_actions : List Suggestion := []

/-- Environment of `act_with_retry`: the outcome of `mcp_client.call_tool`
for the i-th dispatch (an exception message or a raw result),
`_extract_tool_result` modelled opaquely (it unwraps `.data` / `.content`
attributes and parses JSON text), and the parsed reflection produced by
`self.reflect` after the i-th failed attempt. -/
structure XEnv where
  callToolO : Nat → Except String PyVal
  extractO : PyVal → PyVal := id
  reflectO : Nat → ReflectionM := fun _ => {}

/-- The result value observed for the i-th dispatch: extraction on success,
`{"success": False, "error": str(e)}` when `call_tool` raised. -/
def obsResult (env : XEnv) (i : Nat) : PyVal :=
  match env.callToolO i with
  | .ok raw => env.extractO raw
  | .error msg => .pydict [("success", .pybool false), ("error", .pystr msg)]

/-- `Observation.success` as decoded by `SelfCorrectingAgent.observe`:
`result.get("success", False)` when the result is a dict, `False`
otherwise, then Python truthiness at the `if observation.success:` test. -/
def obsSuccess (r : PyVal) : Bool :=
  pyTruthy (successOf r)

/-- The `while attempt < self.max_retries:` loop of
`SelfCorrectingAgent.act_with_retry` (agentic_loop.py lines 167-236):
`rem` counts the attempts still available (`rem = 0` means the bound is
exhausted, where Python falls to the final `return result`, an unbound
local when no attempt ever ran, hence `Option`). Each iteration dispatches
exactly once; on failure with attempts remaining, the first suggestion of
the reflection replaces the current tool and arguments, and an empty
suggestion list terminates the loop early. `attempt` numbers the failed
attempt feeding the reflection oracle; `d` is the dispatch counter. -/
def actGo (env : XEnv) :
    Nat → Nat → String → List (String × String) → Option PyVal → Nat →
    Option PyVal × Nat
  | 0, _, _, _, last, d => (last, d)
  | rem + 1, attempt, tool, _args, _, d =>
      let result := obsResult env d
      let d := d + 1
      if obsSuccess result then (some result, d)
      else if rem = 0 then (some result, d)
      else
        let refl := env.reflectO attempt
        match refl.suggested_actions with
        | [] => (some result, d)
        | s :: _ =>
            actGo env rem (attempt + 1) (s.tool.getD tool)
              (s.arguments.getD []) (some result) d

/-- `SelfCorrectingAgent.act_with_retry` for an agent constructed with
`max_retries = maxR`, returning the result and the number of `call_tool`
dispatches performed. -/
def actWithRetry (env : XEnv) (maxR : Nat) (tool : String)
    (args : List (String × String)) : Option PyVal × Nat :=
  actGo env maxR 0 tool args none 0

/-- A transport outcome handled by the generic `except Exception` clause of
`call_tool` (everything except `PermissionError`; `call_tool` does not
single out `TimeoutError`). -/
def isGenericFail : TRes → Bool
  | .timeoutE => true
  | .exc _ => true
  | _ => false

/-- Number of policy-engine evaluations recorded in a client event log. -/
def policyEvalCount (evs : List CEvent) : Nat :=
  (evs.filter (fun e =>
    match e with
    | .policyEval _ => true
    | _ => false)).length

/-- Concrete two-task parsed plan whose second task lists its (existing)
dependency twice — a shape the planner accepts verbatim from LLM output. -/
def c5ts : List SubTask :=
  [{ id := "task_a", tool_name := "list_directory" },
   { id := "task_b", tool_name := "list_directory",
     dependencies := ["task_a", "task_a"] }]

/-- Concrete parsed plan listing the dependent task before its
prerequisite in the `subtasks` sequence. -/
def c6ts : List SubTask :=
  [{ id := "task_b", tool_name := "list_directory",
     dependencies := ["task_a"] },
   { id := "task_a", tool_name := "system_info" }]

/-- Concrete valid two-task plan (dependency listed first). -/
def c5tsOk : List SubTask :=
  [{ id := "task_a", tool_name := "list_directory" },
   { id := "task_b", tool_name := "list_directory",
     dependencies := ["task_a"] }]

-- =====================================================================
-- Theorems
-- =====================================================================

/-- C10: any `run_command` / `interactive_command` payload whose lowercased
command contains `/dev/null` (or `rm -rf`, or `/dev/sda`) is denied by
`PolicyEngine.evaluate`, for any engine configuration — including benign
commands that merely redirect output to `/dev/null`. -/
theorem c10_dangerous_pattern_denied (e : PolicyEngine) (name : String)
    (args : List (String × String))
    (hname : name = "run_command" ∨ name = "interactive_command")
    (hpat : pyIn "/dev/null" (lowerStr (aget args "command")) = true
          ∨ pyIn "rm -rf" (lowerStr (aget args "command")) = true
          ∨ pyIn "/dev/sda" (lowerStr (aget args "command")) = true) :
    e.evaluate "tool" { name := some name, arguments := args } =
      PolicyDecision.DENY := by
  have hd : (dangerous_patterns.any
      (fun b => pyIn b (lowerStr (aget args "command")))) = true := by
    apply List.any_eq_true.mpr
    rcases hpat with h | h | h
    · exact ⟨"/dev/null", by decide, h⟩
    · exact ⟨"rm -rf", by decide, h⟩
    · exact ⟨"/dev/sda", by decide, h⟩
  rcases hname with h | h <;> subst h <;>
    simp only [PolicyEngine.evaluate, hd, Bool.or_true, Bool.and_true] <;>
    simp

/-- Witness for C10 at a benign command that only redirects to `/dev/null`. -/
theorem c10_dangerous_pattern_denied_witness :
    ("run_command" = "run_command" ∨ "run_command" = "interactive_command")
    ∧ (pyIn "/dev/null"
        (lowerStr (aget [("command", "echo ok > /dev/null")] "command")) = true
       ∨ pyIn "rm -rf"
        (lowerStr (aget [("command", "echo ok > /dev/null")] "command")) = true
       ∨ pyIn "/dev/sda"
        (lowerStr (aget [("command", "echo ok > /dev/null")] "command")) = true)
    ∧ PolicyEngine.evaluate ⟨false⟩ "tool"
        { name := some "run_command",
          arguments := [("command", "echo ok > /dev/null")] } =
      PolicyDecision.DENY :=
  ⟨Or.inl rfl, Or.inl (by decide),
   c10_dangerous_pattern_denied ⟨false⟩ "run_command"
     [("command", "echo ok > /dev/null")] (Or.inl rfl) (Or.inl (by decide))⟩

/-- C3 (code bug): on the failing input — a plan whose first subtask runs
`rm -rf /` with a second benign subtask behind it — the policy evaluates to
DENY, and the execution loop of `answer()` aborts with the uncaught
`PermissionError` from `_gate_tool`: no skip is recorded, the denial is not
surfaced as data, and the remaining subtask is never processed. The claim
(and spec) instead promise a recorded skip with reason `policy denied` and
continuation; the `Skipping ... - policy denied` branch of the source is
reachable only for DRY_RUN decisions. -/
theorem c3_policy_denial_aborts_pipeline :
    PolicyEngine.evaluate ⟨false⟩ "tool"
      { name := some "run_command", arguments := [("command", "rm -rf /")] } =
      PolicyDecision.DENY
    ∧ runPlan ⟨false⟩
        { dispatch := fun _ => PyVal.pydict [("success", PyVal.pybool true)] }
        [{ id := "task_1", tool_name := "run_command",
           arguments := [("command", "rm -rf /")] },
         { id := "task_2", tool_name := "list_directory",
           arguments := [("path", ".")] }]
      = (.error "Policy denied: run_command", [], 0) :=
  ⟨by decide, rfl⟩

/-- C4 counterexample: on a dry-run engine, a mutating `write_file` subtask
is skipped outright — the execution results stay empty and nothing is
dispatched — contradicting the claim that the agent observes a successful
(synthetic) outcome for the operation. -/
theorem c4_counterexample :
    PolicyEngine.evaluate ⟨true⟩ "tool"
      { name := some "write_file",
        arguments := [("path", "report.txt"), ("content", "hi")] } =
      PolicyDecision.DRY_RUN
    ∧ runPlan ⟨true⟩
        { dispatch := fun _ => PyVal.pydict [("success", PyVal.pybool true)] }
        [{ id := "task_1", tool_name := "write_file",
           arguments := [("path", "report.txt"), ("content", "hi")] }]
      = (.ok [], [.skipPolicy "task_1"], 0) :=
  ⟨by decide, rfl⟩

/-- C4 amended: a DRY_RUN decision makes the agent skip the task — no
transport dispatch and no result entry (in particular no synthetic
success); the loop just moves on with a `skipPolicy` step. -/
theorem c4_dry_run_skips_task (pe : PolicyEngine) (env : AEnv)
    (t : SubTask) (rest : List SubTask) (results : List ExecEntry)
    (dc : Nat) (log : List GhostStep)
    (hdeps : depsComplete results t = true)
    (hdec : pe.evaluate "tool"
        { name := some t.tool_name, arguments := t.arguments } =
      PolicyDecision.DRY_RUN) :
    runPlanAux pe env (t :: rest) results dc log
      = runPlanAux pe env rest results dc (log ++ [.skipPolicy t.id]) := by
  simp only [runPlanAux, hdeps, gateTool, hdec, Bool.not_true]
  simp [PolicyDecision.DRY_RUN, PolicyDecision.DENY]

/-- Witness for C4 amended at the dry-run `write_file` input. -/
theorem c4_dry_run_skips_task_witness :
    depsComplete []
      { id := "task_1", tool_name := "write_file",
        arguments := [("path", "report.txt"), ("content", "hi")] } = true
    ∧ PolicyEngine.evaluate ⟨true⟩ "tool"
        { name := some "write_file",
          arguments := [("path", "report.txt"), ("content", "hi")] } =
      PolicyDecision.DRY_RUN
    ∧ runPlanAux ⟨true⟩ { dispatch := fun _ => PyVal.pynone }
        [{ id := "task_1", tool_name := "write_file",
           arguments := [("path", "report.txt"), ("content", "hi")] }] [] 0 []
      = runPlanAux ⟨true⟩ { dispatch := fun _ => PyVal.pynone } [] [] 0
          ([] ++ [.skipPolicy "task_1"]) :=
  ⟨by decide, by decide,
   c4_dry_run_skips_task ⟨true⟩ { dispatch := fun _ => PyVal.pynone }
     { id := "task_1", tool_name := "write_file",
       arguments := [("path", "report.txt"), ("content", "hi")] }
     [] [] 0 [] (by decide) (by decide)⟩

/-- Each iteration of the `act_with_retry` loop performs exactly one
dispatch, so the dispatch counter grows by at most the remaining attempts. -/
theorem actGo_count_le (env : XEnv) :
    ∀ (rem attempt : Nat) (tool : String) (args : List (String × String))
      (last : Option PyVal) (d : Nat),
      (actGo env rem attempt tool args last d).2 ≤ d + rem := by
  intro rem
  induction rem with
  | zero => intro attempt tool args last d; simp [actGo]
  | succ n ih =>
      intro attempt tool args last d
      cases h1 : obsSuccess (obsResult env d) with
      | true => simp [actGo, h1]
      | false =>
          by_cases h2 : n = 0
          · simp [actGo, h1, h2]
          · cases hs : (env.reflectO attempt).suggested_actions with
            | nil => simp [actGo, h1, h2, hs]
            | cons s ss =>
                have := ih (attempt + 1) (s.tool.getD tool)
                  (s.arguments.getD []) (some (obsResult env d)) (d + 1)
                simp [actGo, h1, h2, hs]
                omega

/-- When every attempt fails and every consulted reflection offers a
suggestion, the loop runs to exhaustion and returns the result of its last
dispatch as-is. -/
theorem actGo_exhaust (env : XEnv) :
    ∀ (rem attempt : Nat) (tool : String) (args : List (String × String))
      (last : Option PyVal) (d : Nat),
      1 ≤ rem →
      (∀ i, d ≤ i → i < d + rem → obsSuccess (obsResult env i) = false) →
      (∀ a, attempt ≤ a → a + 1 < attempt + rem →
        (env.reflectO a).suggested_actions.isEmpty = false) →
      actGo env rem attempt tool args last d
        = (some (obsResult env (d + rem - 1)), d + rem) := by
  intro rem
  induction rem with
  | zero => intro _ _ _ _ _ h1; omega
  | succ n ih =>
      intro attempt tool args last d _ hf hr
      have hfail : obsSuccess (obsResult env d) = false :=
        hf d (Nat.le_refl d) (by omega)
      cases n with
      | zero => simp [actGo, hfail]
      | succ m =>
          have hrefl : (env.reflectO attempt).suggested_actions.isEmpty
              = false := hr attempt (Nat.le_refl attempt) (by omega)
          cases hs : (env.reflectO attempt).suggested_actions with
          | nil => rw [hs] at hrefl; simp at hrefl
          | cons s ss =>
              have hrec := ih (attempt + 1) (s.tool.getD tool)
                (s.arguments.getD []) (some (obsResult env d)) (d + 1)
                (by omega)
                (fun i h1 h2 => hf i (by omega) (by omega))
                (fun a h1 h2 => hr a (by omega) (by omega))
              have hstep : actGo env (m + 1 + 1) attempt tool args last d
                  = actGo env (m + 1) (attempt + 1) (s.tool.getD tool)
                      (s.arguments.getD []) (some (obsResult env d))
                      (d + 1) := by
                simp [actGo, hfail, hs]
              rw [hstep, hrec]
              have e1 : d + 1 + (m + 1) - 1 = d + (m + 1 + 1) - 1 := by omega
              have e2 : d + 1 + (m + 1) = d + (m + 1 + 1) := by omega
              rw [e1, e2]

/-- C9: `act_with_retry` always terminates having performed at most
`max_retries` tool dispatches, and when every attempt fails while
reflections keep suggesting actions — so the attempt bound is what stops
the loop — the result of the last observation is returned as-is. -/
theorem c9_act_with_retry_bound (env : XEnv) (maxR : Nat) (tool : String)
    (args : List (String × String)) :
    (actWithRetry env maxR tool args).2 ≤ maxR
    ∧ (1 ≤ maxR →
        (∀ i, i < maxR → obsSuccess (obsResult env i) = false) →
        (∀ a, a + 1 < maxR →
          (env.reflectO a).suggested_actions.isEmpty = false) →
        actWithRetry env maxR tool args
          = (some (obsResult env (maxR - 1)), maxR)) := by
  constructor
  · have := actGo_count_le env maxR 0 tool args none 0
    simpa [actWithRetry] using this
  · intro h1 hf hr
    have := actGo_exhaust env maxR 0 tool args none 0 h1
      (fun i _ hi => hf i (by omega))
      (fun a _ ha => hr a (by omega))
    simpa [actWithRetry] using this

/-- Witness for C9: three dispatches, all failing, reflections always
suggesting a retry; the loop stops at the bound and hands back the last
observed result. -/
theorem c9_act_with_retry_bound_witness :
    (actWithRetry
      { callToolO := fun _ => .error "boom",
        reflectO := fun _ => { suggested_actions := [{ tool := some "t" }] } }
      3 "read_file" [("path", "cfg.ini")]).2 ≤ 3
    ∧ (1 ≤ 3)
    ∧ actWithRetry
        { callToolO := fun _ => .error "boom",
          reflectO := fun _ =>
            { suggested_actions := [{ tool := some "t" }] } }
        3 "read_file" [("path", "cfg.ini")]
      = (some (obsResult
          { callToolO := fun _ => .error "boom",
            reflectO := fun _ =>
              { suggested_actions := [{ tool := some "t" }] } } 2), 3) :=
  ⟨(c9_act_with_retry_bound _ 3 "read_file" [("path", "cfg.ini")]).1,
   by omega,
   (c9_act_with_retry_bound _ 3 "read_file" [("path", "cfg.ini")]).2
     (by omega) (fun _ _ => rfl) (fun _ _ => rfl)⟩

/-- C1 counterexample: a `call_tool` invocation on the MCP client that
dispatches to the transport while the policy engine is evaluated zero
times — `client.py` has no reference to the policy engine at all, so the
claimed exactly-one evaluation before transport activity is refuted. -/
theorem c1_counterexample :
    (callTool
        { transport := fun _ =>
            .ok (PyVal.pydict [("success", PyVal.pybool true)]) }
        0 {} "terminal" "list_directory" [("path", ".")]).1
      = .ok (some (PyVal.pydict [("success", PyVal.pybool true)]))
    ∧ (callTool
        { transport := fun _ =>
            .ok (PyVal.pydict [("success", PyVal.pybool true)]) }
        0 {} "terminal" "list_directory" [("path", ".")]).2.events
      = [.transportDispatch "tool" "list_directory"]
    ∧ policyEvalCount
        (callTool
          { transport := fun _ =>
              .ok (PyVal.pydict [("success", PyVal.pybool true)]) }
          0 {} "terminal" "list_directory" [("path", ".")]).2.events = 0 :=
  ⟨rfl, rfl, rfl⟩

/-- C2 counterexample: the dynamically formed URI `file:///etc/shadow` is
not in the allow-set for server `terminal`, yet `read_resource` performs
the read (one transport dispatch, success) instead of raising
`PermissionError` — the source allows every `file://` URI without any
pattern check. -/
theorem c2_counterexample :
    (ALLOWED_RESOURCES "terminal").contains "file:///etc/shadow" = false
    ∧ isResourceAllowed "terminal" "file:///etc/shadow" = true
    ∧ (readResource
        { transport := fun _ => .ok (PyVal.pystr "root:x:...") }
        0 {} "terminal" "file:///etc/shadow").1
      = .ok (some (PyVal.pystr "root:x:..."))
    ∧ (readResource
        { transport := fun _ => .ok (PyVal.pystr "root:x:...") }
        0 {} "terminal" "file:///etc/shadow").2.dispatchCount = 1 :=
  ⟨by decide, by decide, rfl, rfl⟩

/-- C5 counterexample: `c5ts` is a producible plan with empty
`validation_errors` whose execution order is `["task_a"]` — the dependent
task is silently dropped from the order (its duplicated dependency entry
leaves a positive in-degree), so the claimed topological-soundness property
fails on it. -/
theorem c5_counterexample :
    validateWithTools c5ts (computeExecutionOrder c5ts) ["list_directory"]
      = []
    ∧ computeExecutionOrder c5ts = ["task_a"]
    ∧ ¬ (∀ a ∈ c5ts, ∀ b ∈ c5ts, a.id ∈ b.dependencies →
          ∃ i j, i < j
            ∧ (computeExecutionOrder c5ts).get? i = some a.id
            ∧ (computeExecutionOrder c5ts).get? j = some b.id) := by
  refine ⟨by decide, by decide, ?_⟩
  intro h
  have hA : (⟨"task_a", "", "list_directory", [], []⟩ : SubTask) ∈ c5ts :=
    List.mem_cons_self _ _
  have hB : (⟨"task_b", "", "list_directory", [], ["task_a", "task_a"]⟩ :
      SubTask) ∈ c5ts :=
    List.mem_cons_of_mem _ (List.mem_cons_self _ _)
  obtain ⟨i, j, hij, _, hj⟩ := h _ hA _ hB (by decide)
  have horder : computeExecutionOrder c5ts = ["task_a"] := by decide
  rw [horder] at hj
  rcases List.get?_eq_some.mp hj with ⟨hlt, _⟩
  simp at hlt
  omega

/-- C6 counterexample: on the valid plan `c6ts` the precomputed
`execution_order` is `["task_a", "task_b"]`, but the agent processes the
subtasks in list order `["task_b", "task_a"]` and dispatches only
`task_a` — `task_b` is skipped (its dependency has no result yet), so the
agent does not iterate or dispatch following the topological order. -/
theorem c6_counterexample :
    validateWithTools c6ts (computeExecutionOrder c6ts)
        ["list_directory", "system_info"] = []
    ∧ computeExecutionOrder c6ts = ["task_a", "task_b"]
    ∧ (runPlan ⟨false⟩
        { dispatch := fun _ =>
            PyVal.pydict [("success", PyVal.pybool true)] }
        c6ts).2.1.map GhostStep.taskId = ["task_b", "task_a"]
    ∧ dispatchedIds (runPlan ⟨false⟩
        { dispatch := fun _ =>
            PyVal.pydict [("success", PyVal.pybool true)] }
        c6ts).2.1 = ["task_a"] :=
  ⟨by decide, by decide, rfl, rfl⟩

/-- C8 counterexample: with an always-failing transport, a single
`call_tool` invocation from a clean state increments the failure counter of
its key once per failed attempt — to `MAX_RETRIES + 1 = 4`, not 1 — and
already leaves the circuit open (threshold 3 reached inside one
operation), refuting the one-increment-per-exhaustion reading. -/
theorem c8_counterexample :
    (callTool { transport := fun _ => .exc "boom" } 100 {} "terminal"
        "list_directory" [("path", ".")]).1
      = .error (.toolExecErr "boom")
    ∧ (callTool { transport := fun _ => .exc "boom" } 100 {} "terminal"
        "list_directory" [("path", ".")]).2.dispatchCount = 4
    ∧ dgetNat (callTool { transport := fun _ => .exc "boom" } 100 {}
        "terminal" "list_directory" [("path", ".")]).2.failureCount
        (cacheKey "tool" "terminal" "list_directory" (some [("path", ".")]))
      = 4
    ∧ dfind (callTool { transport := fun _ => .exc "boom" } 100 {}
        "terminal" "list_directory" [("path", ".")]).2.circuitOpenUntil
        (cacheKey "tool" "terminal" "list_directory" (some [("path", ".")]))
      = some 110 :=
  ⟨rfl, rfl, by decide, by decide⟩

/-- C7 counterexample: the transport first returns an empty dict (a falsy
value) and then a different value. The first `call_tool` succeeds and
caches the empty dict, but the cache lookup of the second invocation tests
Python truthiness (`if cached:`), falls through to the transport again
(one more dispatch) and returns a different result object — refuting cache
idempotence as claimed. -/
theorem c7_counterexample :
    (callTool
        { transport := fun i =>
            if i = 0 then .ok (PyVal.pydict [])
            else .ok (PyVal.pydict [("x", PyVal.pystr "1")]) }
        0 {} "terminal" "list_directory" [("path", ".")]).1
      = .ok (some (PyVal.pydict []))
    ∧ (callTool
        { transport := fun i =>
            if i = 0 then .ok (PyVal.pydict [])
            else .ok (PyVal.pydict [("x", PyVal.pystr "1")]) }
        0
        (callTool
          { transport := fun i =>
              if i = 0 then .ok (PyVal.pydict [])
              else .ok (PyVal.pydict [("x", PyVal.pystr "1")]) }
          0 {} "terminal" "list_directory" [("path", ".")]).2
        "terminal" "list_directory" [("path", ".")]).1
      = .ok (some (PyVal.pydict [("x", PyVal.pystr "1")]))
    ∧ (callTool
        { transport := fun i =>
            if i = 0 then .ok (PyVal.pydict [])
            else .ok (PyVal.pydict [("x", PyVal.pystr "1")]) }
        0
        (callTool
          { transport := fun i =>
              if i = 0 then .ok (PyVal.pydict [])
              else .ok (PyVal.pydict [("x", PyVal.pystr "1")]) }
          0 {} "terminal" "list_directory" [("path", ".")]).2
        "terminal" "list_directory" [("path", ".")]).2.dispatchCount = 2
    ∧ (PyVal.pydict [] : PyVal) ≠ PyVal.pydict [("x", PyVal.pystr "1")] :=
  ⟨rfl, rfl, rfl, by simp⟩

/-- Appending a transport event does not change the policy-eval count. -/
theorem policyEvalCount_append (evs : List CEvent) (k n : String) :
    policyEvalCount (evs ++ [.transportDispatch k n]) = policyEvalCount evs := by
  simp [policyEvalCount]

/-- `recordFailure` leaves the event log unchanged. -/
theorem recordFailure_events (st : CState) (key : String) (now : Nat) :
    (recordFailure st key now).events = st.events := by
  unfold recordFailure
  dsimp only
  split <;> rfl

/-- `recordFailure` leaves the cancellation flag unchanged. -/
theorem recordFailure_cancelled (st : CState) (key : String) (now : Nat) :
    (recordFailure st key now).cancelled = st.cancelled := by
  unfold recordFailure
  dsimp only
  split <;> rfl

/-- The retry loop of `call_tool` never records a policy evaluation. -/
theorem callToolLoop_policyEvalCount (env : CEnv) (now : Nat)
    (key name : String) :
    ∀ (n : Nat) (st : CState),
      policyEvalCount (callToolLoop env now key name n st).2.events
        = policyEvalCount st.events := by
  intro n
  induction n with
  | zero => intro st; rfl
  | succ m ih =>
      intro st
      simp only [callToolLoop]
      cases env.transport st.dispatchCount with
      | ok v =>
          simp [recordSuccess, setCache, addToContext, dispatchStep,
            ENABLE_CACHE, policyEvalCount_append]
          split <;> simp [policyEvalCount_append]
      | permE msg => simp [dispatchStep, policyEvalCount_append]
      | timeoutE =>
          by_cases hm : m = 0
          · simp [hm, dispatchStep, recordFailure_events,
              policyEvalCount_append]
          · simp only [hm, if_false, reduceIte]
            rw [ih]
            simp [dispatchStep, recordFailure_events, policyEvalCount_append]
      | exc msg =>
          by_cases hm : m = 0
          · simp [hm, dispatchStep, recordFailure_events,
              policyEvalCount_append]
          · simp only [hm, if_false, reduceIte]
            rw [ih]
            simp [dispatchStep, recordFailure_events, policyEvalCount_append]

/-- The retry loop of `read_resource` never records a policy evaluation. -/
theorem readResourceLoop_policyEvalCount (env : CEnv) (now : Nat)
    (key uri : String) :
    ∀ (n attempt : Nat) (st : CState),
      policyEvalCount (readResourceLoop env now key uri attempt n st).2.events
        = policyEvalCount st.events := by
  intro n
  induction n with
  | zero => intro attempt st; rfl
  | succ m ih =>
      intro attempt st
      simp only [readResourceLoop]
      by_cases htime : env.elapsed attempt > RESOURCE_TIMEOUT_SECONDS
      · simp [htime]
      · simp only [htime, if_false, reduceIte]
        cases env.transport st.dispatchCount with
        | ok v =>
            simp [recordSuccess, setCache, addToContext, dispatchStep,
              ENABLE_CACHE, policyEvalCount_append]
            split <;> simp [policyEvalCount_append]
        | permE msg => simp [dispatchStep, policyEvalCount_append]
        | timeoutE => simp [dispatchStep, policyEvalCount_append]
        | exc msg =>
            by_cases hm : m = 0
            · simp [hm, dispatchStep, recordFailure_events,
                policyEvalCount_append]
            · simp only [hm, if_false, reduceIte]
              rw [ih]
              simp [dispatchStep, recordFailure_events,
                policyEvalCount_append]

/-- The prompt fetch never records a policy evaluation. -/
theorem getPromptFetch_policyEvalCount (env : CEnv) (st : CState)
    (key name : String) :
    policyEvalCount (getPromptFetch env st key name).2.events
      = policyEvalCount st.events := by
  simp only [getPromptFetch]
  cases env.transport st.dispatchCount with
  | ok v =>
      simp [setCache, addToContext, dispatchStep, ENABLE_CACHE,
        policyEvalCount_append]
      split <;> simp [policyEvalCount_append]
  | permE msg => simp [dispatchStep, policyEvalCount_append]
  | timeoutE => simp [dispatchStep, policyEvalCount_append]
  | exc msg => simp [dispatchStep, policyEvalCount_append]

/-- C1 amended: the MCP client itself never consults the policy engine —
its operations record zero policy evaluations no matter what happens — and
its gating is the static allow-lists, raising `PermissionError` without
transport activity for a disallowed tool. The policy engine is consulted
only by the agent before it invokes the client: `_gate_tool` evaluates the
policy once, raising `PermissionError` on DENY and returning `False`
(which makes the agent skip the call, not synthesise a success) on
DRY_RUN. -/
theorem c1_client_policy_gating :
    (∀ (env : CEnv) (now : Nat) (st : CState) (server name : String)
        (args : List (String × String)),
      policyEvalCount (callTool env now st server name args).2.events
        = policyEvalCount st.events)
    ∧ (∀ (env : CEnv) (now : Nat) (st : CState) (server uri : String),
      policyEvalCount (readResource env now st server uri).2.events
        = policyEvalCount st.events)
    ∧ (∀ (env : CEnv) (st : CState) (server name : String)
        (args : List (String × String)),
      policyEvalCount (getPrompt env st server name args).2.events
        = policyEvalCount st.events)
    ∧ (∀ (env : CEnv) (now : Nat) (st : CState) (server name : String)
        (args : List (String × String)), st.cancelled = false →
      isToolAllowed server name = false →
      callTool env now st server name args
        = (.error (.permissionErr ("Tool not allowed: " ++ name)), st))
    ∧ (∀ (pe : PolicyEngine) (name : String)
        (args : List (String × String)),
      pe.evaluate "tool" { name := some name, arguments := args }
          = PolicyDecision.DENY →
      gateTool pe name args = .error ("Policy denied: " ++ name))
    ∧ (∀ (pe : PolicyEngine) (name : String)
        (args : List (String × String)),
      pe.evaluate "tool" { name := some name, arguments := args }
          = PolicyDecision.DRY_RUN →
      gateTool pe name args = .ok false) := by
  refine ⟨?_, ?_, ?_, ?_, ?_, ?_⟩
  · intro env now st server name args
    unfold callTool
    split
    · rfl
    · split
      · rfl
      · dsimp only
        split
        · rfl
        · split
          · split
            · rfl
            · exact callToolLoop_policyEvalCount env now _ name _ st
          · exact callToolLoop_policyEvalCount env now _ name _ st
  · intro env now st server uri
    unfold readResource
    split
    · rfl
    · split
      · rfl
      · dsimp only
        split
        · rfl
        · split
          · split
            · rfl
            · exact readResourceLoop_policyEvalCount env now _ uri _ _ st
          · exact readResourceLoop_policyEvalCount env now _ uri _ _ st
  · intro env st server name args
    unfold getPrompt
    split
    · rfl
    · split
      · rfl
      · dsimp only
        split
        · split
          · rfl
          · exact getPromptFetch_policyEvalCount env st _ name
        · exact getPromptFetch_policyEvalCount env st _ name
  · intro env now st server name args hc hn
    unfold callTool
    simp [hc, hn]
  · intro pe name args hdec
    unfold gateTool
    rw [hdec]
    rfl
  · intro pe name args hdec
    unfold gateTool
    rw [hdec]
    rfl

/-- Witness for C1 amended: a disallowed tool name is rejected by the
static allow-list with no transport, and a denied / dry-run payload drives
the agent gate as described. -/
theorem c1_client_policy_gating_witness :
    (({} : CState).cancelled = false
      ∧ isToolAllowed "terminal" "frobnicate" = false
      ∧ callTool { transport := fun _ => .ok PyVal.pynone } 0 {} "terminal"
          "frobnicate" []
        = (.error (.permissionErr "Tool not allowed: frobnicate"), {}))
    ∧ (PolicyEngine.evaluate ⟨false⟩ "tool"
          { name := some "run_command",
            arguments := [("command", "rm -rf /")] } = PolicyDecision.DENY
      ∧ gateTool ⟨false⟩ "run_command" [("command", "rm -rf /")]
        = .error "Policy denied: run_command")
    ∧ (PolicyEngine.evaluate ⟨true⟩ "tool"
          { name := some "write_file", arguments := [("path", "a.txt")] }
        = PolicyDecision.DRY_RUN
      ∧ gateTool ⟨true⟩ "write_file" [("path", "a.txt")] = .ok false) :=
  ⟨⟨rfl, by decide,
    c1_client_policy_gating.2.2.2.1 { transport := fun _ => .ok PyVal.pynone }
      0 {} "terminal" "frobnicate" [] rfl (by decide)⟩,
   ⟨by decide,
    c1_client_policy_gating.2.2.2.2.1 ⟨false⟩ "run_command"
      [("command", "rm -rf /")] (by decide)⟩,
   ⟨by decide,
    c1_client_policy_gating.2.2.2.2.2 ⟨true⟩ "write_file"
      [("path", "a.txt")] (by decide)⟩⟩

/-- C2 amended: `read_resource` raises `PermissionError` (with no transport
activity and unchanged state) exactly when the URI is neither in the
allow-set nor of the `file://` form; every `file://` URI passes the gate
unconditionally — the source performs no pattern check on dynamic URIs and
defers validation to the server. -/
theorem c2_resource_permission_gate (env : CEnv) (now : Nat) (st : CState)
    (server uri : String)
    (hc : st.cancelled = false)
    (hmem : (ALLOWED_RESOURCES server).contains uri = false)
    (hfile : swStr "file://" uri = false) :
    readResource env now st server uri
      = (.error (.permissionErr ("Resource not allowed: " ++ uri)), st)
    ∧ ∀ uri2, swStr "file://" uri2 = true →
        isResourceAllowed server uri2 = true := by
  constructor
  · have hall : isResourceAllowed server uri = false := by
      unfold isResourceAllowed
      rw [hmem, hfile]
      rfl
    unfold readResource
    simp [hc, hall]
  · intro uri2 h2
    unfold isResourceAllowed
    rw [h2]
    split <;> rfl

/-- Witness for C2 amended at a URI outside the allow-set that is not a
`file://` URI. -/
theorem c2_resource_permission_gate_witness :
    (({} : CState).cancelled = false
      ∧ (ALLOWED_RESOURCES "terminal").contains "workspace://secret" = false
      ∧ swStr "file://" "workspace://secret" = false)
    ∧ readResource { transport := fun _ => .ok PyVal.pynone } 0 {}
        "terminal" "workspace://secret"
      = (.error (.permissionErr "Resource not allowed: workspace://secret"),
         {})
    ∧ isResourceAllowed "terminal" "file://notes.txt" = true :=
  ⟨⟨rfl, by decide, by decide⟩,
   (c2_resource_permission_gate { transport := fun _ => .ok PyVal.pynone }
     0 {} "terminal" "workspace://secret" rfl (by decide) (by decide)).1,
   (c2_resource_permission_gate { transport := fun _ => .ok PyVal.pynone }
     0 {} "terminal" "workspace://secret" rfl (by decide) (by decide)).2
     "file://notes.txt" (by decide)⟩

/-- Looking up the key just written by `dset` yields the written value. -/
theorem dfind_dset_self {α : Type} (m : List (String × α)) (k : String)
    (v : α) : dfind (dset m k v) k = some v := by
  simp [dfind, dset]

/-- `recordFailure` stores the incremented counter for its key. -/
theorem recordFailure_count (st : CState) (key : String) (now : Nat) :
    dgetNat (recordFailure st key now).failureCount key
      = dgetNat st.failureCount key + 1 := by
  unfold recordFailure
  dsimp only
  split <;> simp [dgetNat, dfind_dset_self]

/-- `recordFailure` leaves the dispatch counter unchanged. -/
theorem recordFailure_dispatchCount (st : CState) (key : String)
    (now : Nat) : (recordFailure st key now).dispatchCount
      = st.dispatchCount := by
  unfold recordFailure
  dsimp only
  split <;> rfl

/-- `recordFailure` leaves the failure counters of other keys and the rest
of the failure map shape determined; what the retry-loop accounting needs
is only the key itself, covered by `recordFailure_count`. The loop lemma:
when every transport outcome in the window is handled by the generic
handler, the loop of `call_tool` raises `ToolExecutionError` after
exhausting its `n` attempts, having incremented the failure counter of the
key once per attempt and dispatched once per attempt. -/
theorem callToolLoop_allfail (env : CEnv) (now : Nat) (key name : String) :
    ∀ (n : Nat) (st : CState), 1 ≤ n →
      (∀ i, st.dispatchCount ≤ i → i < st.dispatchCount + n →
        isGenericFail (env.transport i) = true) →
      (∃ msg, (callToolLoop env now key name n st).1
          = .error (.toolExecErr msg))
      ∧ dgetNat (callToolLoop env now key name n st).2.failureCount key
          = dgetNat st.failureCount key + n
      ∧ (callToolLoop env now key name n st).2.dispatchCount
          = st.dispatchCount + n := by
  intro n
  induction n with
  | zero => intro st h1; omega
  | succ m ih =>
      intro st _ hfail
      have hgen : isGenericFail (env.transport st.dispatchCount) = true :=
        hfail st.dispatchCount (Nat.le_refl _) (by omega)
      simp only [callToolLoop]
      cases htr : env.transport st.dispatchCount with
      | ok v => rw [htr] at hgen; simp [isGenericFail] at hgen
      | permE msg => rw [htr] at hgen; simp [isGenericFail] at hgen
      | timeoutE =>
          cases m with
          | zero =>
              refine ⟨⟨"Resource read timeout", rfl⟩, ?_, ?_⟩
              · simp [recordFailure_count, dispatchStep]
              · simp [recordFailure_dispatchCount, dispatchStep]
          | succ p =>
              have hstep :
                  (recordFailure (dispatchStep st "tool" name) key
                    now).dispatchCount = st.dispatchCount + 1 := by
                simp [recordFailure_dispatchCount, dispatchStep]
              have := ih (recordFailure (dispatchStep st "tool" name) key now)
                (by omega)
                (fun i hi1 hi2 => hfail i (by omega) (by rw [hstep] at hi2; omega))
              simp only [Nat.succ_ne_zero, if_false, reduceIte]
              refine ⟨this.1, ?_, ?_⟩
              · rw [this.2.1]
                simp [recordFailure_count, dispatchStep]
                omega
              · rw [this.2.2, hstep]
                omega
      | exc msg =>
          cases m with
          | zero =>
              refine ⟨⟨msg, rfl⟩, ?_, ?_⟩
              · simp [recordFailure_count, dispatchStep]
              · simp [recordFailure_dispatchCount, dispatchStep]
          | succ p =>
              have hstep :
                  (recordFailure (dispatchStep st "tool" name) key
                    now).dispatchCount = st.dispatchCount + 1 := by
                simp [recordFailure_dispatchCount, dispatchStep]
              have := ih (recordFailure (dispatchStep st "tool" name) key now)
                (by omega)
                (fun i hi1 hi2 => hfail i (by omega) (by rw [hstep] at hi2; omega))
              simp only [Nat.succ_ne_zero, if_false, reduceIte]
              refine ⟨this.1, ?_, ?_⟩
              · rw [this.2.1]
                simp [recordFailure_count, dispatchStep]
                omega
              · rw [this.2.2, hstep]
                omega

/-- C8 amended: one failing `call_tool` operation increments the failure
counter of its cache key once per failed transport attempt — by
`MAX_RETRIES + 1` in total, not once — before raising
`ToolExecutionError`; since `MAX_RETRIES + 1 = 4 ≥ FAILURE_THRESHOLD = 3`,
a single exhausted operation alone opens the circuit (the
counterexample theorem exhibits the open circuit concretely). -/
theorem c8_failure_increment_per_attempt (env : CEnv) (now : Nat)
    (st : CState) (server name : String) (args : List (String × String))
    (hc : st.cancelled = false)
    (hallow : isToolAllowed server name = true)
    (hcirc : circuitOpen st (cacheKey "tool" server name (some args)) now
      = false)
    (hcache : getCached st (cacheKey "tool" server name (some args)) = none)
    (hfail : ∀ i, st.dispatchCount ≤ i →
      i < st.dispatchCount + (MAX_RETRIES + 1) →
      isGenericFail (env.transport i) = true) :
    (∃ msg, (callTool env now st server name args).1
        = .error (.toolExecErr msg))
    ∧ dgetNat (callTool env now st server name args).2.failureCount
        (cacheKey "tool" server name (some args))
      = dgetNat st.failureCount (cacheKey "tool" server name (some args))
        + (MAX_RETRIES + 1)
    ∧ (callTool env now st server name args).2.dispatchCount
      = st.dispatchCount + (MAX_RETRIES + 1) := by
  have hred : callTool env now st server name args
      = callToolLoop env now (cacheKey "tool" server name (some args)) name
          (MAX_RETRIES + 1) st := by
    unfold callTool
    simp [hc, hallow, hcirc, hcache]
  rw [hred]
  exact callToolLoop_allfail env now _ name (MAX_RETRIES + 1) st
    (by omega) hfail

/-- Witness for C8 amended: one failing operation from a clean state raises
`ToolExecutionError` with the counter at 4 after 4 dispatches. -/
theorem c8_failure_increment_per_attempt_witness :
    (({} : CState).cancelled = false
      ∧ isToolAllowed "terminal" "read_file" = true)
    ∧ ((∃ msg, (callTool { transport := fun _ => .exc "io error" } 7 {}
          "terminal" "read_file" [("path", "cfg.ini")]).1
        = .error (.toolExecErr msg))
      ∧ dgetNat (callTool { transport := fun _ => .exc "io error" } 7 {}
          "terminal" "read_file" [("path", "cfg.ini")]).2.failureCount
          (cacheKey "tool" "terminal" "read_file" (some [("path", "cfg.ini")]))
        = dgetNat ({} : CState).failureCount
            (cacheKey "tool" "terminal" "read_file"
              (some [("path", "cfg.ini")])) + (MAX_RETRIES + 1)
      ∧ (callTool { transport := fun _ => .exc "io error" } 7 {}
          "terminal" "read_file" [("path", "cfg.ini")]).2.dispatchCount
        = ({} : CState).dispatchCount + (MAX_RETRIES + 1)) :=
  ⟨⟨rfl, by decide⟩,
   c8_failure_increment_per_attempt { transport := fun _ => .exc "io error" }
     7 {} "terminal" "read_file" [("path", "cfg.ini")] rfl (by decide) rfl
     rfl (fun _ _ _ => rfl)⟩

/-- With pairwise-distinct subtask ids, `get_task` on a member id returns
that member. -/
theorem getTask_of_nodup :
    ∀ (ts : List SubTask) (t : SubTask),
      (ts.map (fun x => x.id)).Nodup → t ∈ ts → getTask ts t.id = some t := by
  intro ts
  induction ts with
  | nil => intro t _ h; cases h
  | cons s rest ih =>
      intro t hnd hmem
      rcases List.mem_cons.mp hmem with h | h
      · subst h; simp [getTask]
      · have hne : ¬ (s.id == t.id) = true := by
          intro he
          have h1 : s.id = t.id := by simpa using he
          have h2 : t.id ∈ rest.map (fun x => x.id) :=
            List.mem_map_of_mem _ h
          rw [List.map_cons, List.nodup_cons] at hnd
          exact hnd.1 (h1 ▸ h2)
        have htail : (rest.map (fun x => x.id)).Nodup := by
          rw [List.map_cons, List.nodup_cons] at hnd
          exact hnd.2
        simpa [getTask, List.find?, hne] using ih t htail h

/-- What a passing `_validate_execution_order` run guarantees: every
dependency of (the first task named by) a listed id appears among the
already-listed ids or earlier in the listing. -/
theorem validateOrderAux_spec (ts : List SubTask) :
    ∀ (rest completed : List String),
      validateOrderAux ts completed rest = true →
      ∀ (j : Nat) (tid : String), rest.get? j = some tid →
      ∀ (t : SubTask), getTask ts tid = some t →
      ∀ d ∈ t.dependencies,
        d ∈ completed ∨ ∃ i, i < j ∧ rest.get? i = some d := by
  intro rest
  induction rest with
  | nil => intro completed _ j tid hj; simp at hj
  | cons x rest ih =>
      intro completed hval j tid hj t ht d hd
      simp only [validateOrderAux] at hval
      cases hg : getTask ts x with
      | none => rw [hg] at hval; cases hval
      | some tx =>
          rw [hg] at hval
          have hparts := hval
          rw [Bool.and_eq_true] at hparts
          cases j with
          | zero =>
              have hx : x = tid := by simpa using hj
              subst hx
              rw [hg] at ht
              have htx : tx = t := by injection ht
              subst htx
              left
              have := List.all_eq_true.mp hparts.1 d hd
              simpa using this
          | succ k =>
              have hj2 : rest.get? k = some tid := by simpa using hj
              have := ih (completed ++ [x]) hparts.2 k tid hj2 t ht d hd
              rcases this with hin | ⟨i, hik, hi⟩
              · rcases List.mem_append.mp hin with h | h
                · exact Or.inl h
                · refine Or.inr ⟨0, by omega, ?_⟩
                  have : d = x := by simpa using h
                  simp [this]
              · exact Or.inr ⟨i + 1, by omega, by simpa using hi⟩

/-- An empty `validation_errors` list implies that the fourth check,
`_validate_execution_order`, passed. -/
theorem errors_empty_order_valid (ts : List SubTask) (order : List String)
    (tools : List String)
    (h : validateWithTools ts order tools = []) :
    validateExecutionOrder ts order = true := by
  unfold validateWithTools at h
  dsimp only at h
  rcases List.append_eq_nil.mp h with ⟨-, h4⟩
  cases hvo : validateExecutionOrder ts order with
  | true => rfl
  | false => rw [hvo] at h4; cases h4

/-- C5 amended: for a produced plan with pairwise-distinct subtask ids and
empty `validation_errors`, whenever `a ∈ b.dependencies` and `b`s id
actually appears in `execution_order`, `a`s id appears strictly earlier.
(The distinctness proviso and the membership proviso are both forced: with
a duplicated id the order check consults only the first task of that id,
and a task whose dependency list repeats an entry is silently dropped from
the order without any validation error — see the counterexample.) -/
theorem c5_topological_soundness_amended (ts : List SubTask)
    (tools : List String) (a b : SubTask)
    (hnodup : (ts.map (fun t => t.id)).Nodup)
    (herr : validateWithTools ts (computeExecutionOrder ts) tools = [])
    (_ha : a ∈ ts) (hb : b ∈ ts)
    (hdep : a.id ∈ b.dependencies)
    (hmem : b.id ∈ computeExecutionOrder ts) :
    ∃ i j, i < j
      ∧ (computeExecutionOrder ts).get? i = some a.id
      ∧ (computeExecutionOrder ts).get? j = some b.id := by
  have hvo := errors_empty_order_valid ts (computeExecutionOrder ts)
    tools herr
  unfold validateExecutionOrder at hvo
  obtain ⟨j, hj⟩ := List.get?_of_mem hmem
  have hgt := getTask_of_nodup ts b hnodup hb
  have hres := validateOrderAux_spec ts (computeExecutionOrder ts) [] hvo
    j b.id hj b hgt a.id hdep
  rcases hres with hin | ⟨i, hij, hi⟩
  · cases hin
  · exact ⟨i, j, hij, hi, hj⟩

/-- Witness for C5 amended on a concrete valid two-task plan. -/
theorem c5_topological_soundness_amended_witness :
    ((c5tsOk.map (fun t => t.id)).Nodup
      ∧ validateWithTools c5tsOk (computeExecutionOrder c5tsOk)
          ["list_directory"] = []
      ∧ "task_a" ∈ (⟨"task_b", "", "list_directory", [], ["task_a"]⟩ :
          SubTask).dependencies
      ∧ "task_b" ∈ computeExecutionOrder c5tsOk)
    ∧ ∃ i j, i < j
      ∧ (computeExecutionOrder c5tsOk).get? i = some "task_a"
      ∧ (computeExecutionOrder c5tsOk).get? j = some "task_b" :=
  ⟨⟨by decide, by decide, by decide, by decide⟩,
   c5_topological_soundness_amended c5tsOk ["list_directory"]
     ⟨"task_a", "", "list_directory", [], []⟩
     ⟨"task_b", "", "list_directory", [], ["task_a"]⟩
     (by decide) (by decide)
     (List.mem_cons_self _ _)
     (List.mem_cons_of_mem _ (List.mem_cons_self _ _))
     (by decide) (by decide)⟩

/-- The execution loop processes the subtasks in list order: its ghost
trace extends the accumulator by a prefix of the remaining subtask ids
(the whole list when no `PermissionError` aborts it). -/
theorem runPlanAux_order (pe : PolicyEngine) (env : AEnv) :
    ∀ (ts : List SubTask) (results : List ExecEntry) (dc : Nat)
      (log : List GhostStep), ∃ k,
      (runPlanAux pe env ts results dc log).2.1.map GhostStep.taskId
        = log.map GhostStep.taskId ++ (ts.map (fun t => t.id)).take k := by
  intro ts
  induction ts with
  | nil =>
      intro results dc log
      exact ⟨0, by simp [runPlanAux]⟩
  | cons t rest ih =>
      intro results dc log
      by_cases hdeps : depsComplete results t = true
      · cases hg : gateTool pe t.tool_name t.arguments with
        | error msg =>
            refine ⟨0, ?_⟩
            simp [runPlanAux, hdeps, hg]
        | ok b =>
            cases b with
            | false =>
                obtain ⟨k, hk⟩ := ih results dc (log ++ [.skipPolicy t.id])
                refine ⟨k + 1, ?_⟩
                have hred : runPlanAux pe env (t :: rest) results dc log
                    = runPlanAux pe env rest results dc
                        (log ++ [.skipPolicy t.id]) := by
                  simp [runPlanAux, hdeps, hg]
                rw [hred, hk]
                simp [GhostStep.taskId, List.take_succ_cons]
            | true =>
                obtain ⟨k, hk⟩ := ih
                  (results ++ [⟨t.id, t.tool_name,
                    successOf (env.dispatch dc), env.dispatch dc⟩])
                  (dc + 1) (log ++ [.dispatched t results])
                refine ⟨k + 1, ?_⟩
                have hred : runPlanAux pe env (t :: rest) results dc log
                    = runPlanAux pe env rest
                        (results ++ [⟨t.id, t.tool_name,
                          successOf (env.dispatch dc), env.dispatch dc⟩])
                        (dc + 1) (log ++ [.dispatched t results]) := by
                  simp [runPlanAux, hdeps, hg]
                rw [hred, hk]
                simp [GhostStep.taskId, List.take_succ_cons]
      · obtain ⟨k, hk⟩ := ih results dc (log ++ [.skipDeps t.id])
        refine ⟨k + 1, ?_⟩
        have hred : runPlanAux pe env (t :: rest) results dc log
            = runPlanAux pe env rest results dc
                (log ++ [.skipDeps t.id]) := by
          simp [runPlanAux, hdeps]
        rw [hred, hk]
        simp [GhostStep.taskId, List.take_succ_cons]

/-- Every dispatch recorded by the execution loop happened under a passing
dependency check against the results accumulated at that moment. -/
theorem runPlanAux_guard (pe : PolicyEngine) (env : AEnv) :
    ∀ (ts : List SubTask) (results : List ExecEntry) (dc : Nat)
      (log : List GhostStep),
      (∀ t prior, GhostStep.dispatched t prior ∈ log →
        depsComplete prior t = true) →
      ∀ t prior,
        GhostStep.dispatched t prior
          ∈ (runPlanAux pe env ts results dc log).2.1 →
        depsComplete prior t = true := by
  intro ts
  induction ts with
  | nil =>
      intro results dc log hlog t prior hmem
      simp only [runPlanAux] at hmem
      exact hlog t prior hmem
  | cons s rest ih =>
      intro results dc log hlog t prior hmem
      by_cases hdeps : depsComplete results s = true
      · cases hg : gateTool pe s.tool_name s.arguments with
        | error msg =>
            have hred : runPlanAux pe env (s :: rest) results dc log
                = (.error msg, log, dc) := by
              simp [runPlanAux, hdeps, hg]
            rw [hred] at hmem
            exact hlog t prior hmem
        | ok b =>
            cases b with
            | false =>
                have hred : runPlanAux pe env (s :: rest) results dc log
                    = runPlanAux pe env rest results dc
                        (log ++ [.skipPolicy s.id]) := by
                  simp [runPlanAux, hdeps, hg]
                rw [hred] at hmem
                refine ih results dc _ ?_ t prior hmem
                intro t2 prior2 h2
                rcases List.mem_append.mp h2 with h | h
                · exact hlog t2 prior2 h
                · simp at h
            | true =>
                have hred : runPlanAux pe env (s :: rest) results dc log
                    = runPlanAux pe env rest
                        (results ++ [⟨s.id, s.tool_name,
                          successOf (env.dispatch dc), env.dispatch dc⟩])
                        (dc + 1) (log ++ [.dispatched s results]) := by
                  simp [runPlanAux, hdeps, hg]
                rw [hred] at hmem
                refine ih _ (dc + 1) _ ?_ t prior hmem
                intro t2 prior2 h2
                rcases List.mem_append.mp h2 with h | h
                · exact hlog t2 prior2 h
                · have h3 : GhostStep.dispatched t2 prior2
                      = GhostStep.dispatched s results := by simpa using h
                  injection h3 with e1 e2
                  subst e1; subst e2
                  exact hdeps
      · have hred : runPlanAux pe env (s :: rest) results dc log
            = runPlanAux pe env rest results dc
                (log ++ [.skipDeps s.id]) := by
          simp [runPlanAux, hdeps]
        rw [hred] at hmem
        refine ih results dc _ ?_ t prior hmem
        intro t2 prior2 h2
        rcases List.mem_append.mp h2 with h | h
        · exact hlog t2 prior2 h
        · simp at h

/-- C6 amended: during `answer()` the agent iterates the subtasks in the
order of the plans `subtasks` list (the ghost trace is always a prefix of
that list of ids), not the precomputed `execution_order`; and no subtask is
dispatched unless every one of its dependencies has a truthy-success entry
in the execution-results list at that moment — tasks with unmet
prerequisites are skipped, not dispatched. -/
theorem c6_dispatch_guard_amended (pe : PolicyEngine) (env : AEnv)
    (ts : List SubTask) :
    (∃ k, (runPlan pe env ts).2.1.map GhostStep.taskId
      = (ts.map (fun t => t.id)).take k)
    ∧ ∀ t prior,
        GhostStep.dispatched t prior ∈ (runPlan pe env ts).2.1 →
        depsComplete prior t = true := by
  constructor
  · obtain ⟨k, hk⟩ := runPlanAux_order pe env ts [] 0 []
    exact ⟨k, by simpa using hk⟩
  · exact runPlanAux_guard pe env ts [] 0 []
      (by intro t prior h; cases h)

/-- Witness for C6 amended on a concrete two-task plan. -/
theorem c6_dispatch_guard_amended_witness :
    (∃ k, (runPlan ⟨false⟩
        { dispatch := fun _ =>
            PyVal.pydict [("success", PyVal.pybool true)] }
        [{ id := "t1", tool_name := "list_directory" },
         { id := "t2", tool_name := "system_info",
           dependencies := ["t1"] }]).2.1.map GhostStep.taskId
      = (([{ id := "t1", tool_name := "list_directory" },
           { id := "t2", tool_name := "system_info",
             dependencies := ["t1"] }] : List SubTask).map
          (fun t => t.id)).take k)
    ∧ ∀ t prior,
        GhostStep.dispatched t prior ∈ (runPlan ⟨false⟩
          { dispatch := fun _ =>
              PyVal.pydict [("success", PyVal.pybool true)] }
          [{ id := "t1", tool_name := "list_directory" },
           { id := "t2", tool_name := "system_info",
             dependencies := ["t1"] }]).2.1 →
        depsComplete prior t = true :=
  c6_dispatch_guard_amended ⟨false⟩
    { dispatch := fun _ => PyVal.pydict [("success", PyVal.pybool true)] }
    [{ id := "t1", tool_name := "list_directory" },
     { id := "t2", tool_name := "system_info", dependencies := ["t1"] }]

/-- Unfolding a lookup over a cons cell. -/
theorem dfind_cons {α : Type} (p : String × α) (rest : List (String × α))
    (k : String) :
    dfind (p :: rest) k = if p.1 = k then some p.2 else dfind rest k := by
  by_cases hp : p.1 = k <;> simp [dfind, List.find?_cons, hp]

/-- A successful lookup names a member of the association list. -/
theorem dfind_mem {α : Type} :
    ∀ (l : List (String × α)) (k : String) (v : α),
      dfind l k = some v → (k, v) ∈ l := by
  intro l
  induction l with
  | nil => intro k v h; simp [dfind] at h
  | cons p rest ih =>
      intro k v h
      rw [dfind_cons] at h
      by_cases hp : p.1 = k
      · rw [if_pos hp] at h
        have : p = (k, v) := by
          cases p
          simp_all
        rw [← this]
        exact List.mem_cons_self _ _
      · rw [if_neg hp] at h
        exact List.mem_cons_of_mem _ (ih k v h)

/-- With duplicate-free keys, membership determines the lookup. -/
theorem dfind_of_mem_nodup {α : Type} :
    ∀ (l : List (String × α)) (k : String) (v : α),
      (l.map Prod.fst).Nodup → (k, v) ∈ l → dfind l k = some v := by
  intro l
  induction l with
  | nil => intro k v _ h; cases h
  | cons p rest ih =>
      intro k v hnd hmem
      rw [List.map_cons, List.nodup_cons] at hnd
      rcases List.mem_cons.mp hmem with h | h
      · rw [← h, dfind_cons]
        simp
      · have hp : p.1 ≠ k := by
          intro he
          exact hnd.1 (he ▸ (List.mem_map_of_mem Prod.fst h : (k, v).1 ∈ _))
        rw [dfind_cons, if_neg hp]
        exact ih k v hnd.2 h

/-- Lookup misses exactly when no entry carries the key. -/
theorem dfind_eq_none_iff {α : Type} (l : List (String × α)) (k : String) :
    dfind l k = none ↔ ∀ p ∈ l, p.1 ≠ k := by
  simp [dfind, List.find?_eq_none]

/-- Permuting an association list with duplicate-free keys does not change
any lookup. -/
theorem dfind_perm {α : Type} (l1 l2 : List (String × α))
    (h : l1.Perm l2) (hnd : (l1.map Prod.fst).Nodup) (k : String) :
    dfind l1 k = dfind l2 k := by
  cases hv : dfind l1 k with
  | some v =>
      have hnd2 : (l2.map Prod.fst).Nodup :=
        ((h.map Prod.fst).nodup_iff).mp hnd
      have hm2 : (k, v) ∈ l2 := h.mem_iff.mp (dfind_mem l1 k v hv)
      exact (dfind_of_mem_nodup l2 k v hnd2 hm2).symm
  | none =>
      have h1 := (dfind_eq_none_iff l1 k).mp hv
      exact ((dfind_eq_none_iff l2 k).mpr
        (fun p hp => h1 p (h.mem_iff.mpr hp))).symm

/-- The canonical (sorted) entry list of `json.dumps(..., sort_keys=True)`
is invariant under permutation of a duplicate-free-keyed argument dict. -/
theorem canonArgs_perm (a1 a2 : List (String × String))
    (h : a1.Perm a2) (hnd : (a1.map Prod.fst).Nodup) :
    canonArgs a1 = canonArgs a2 := by
  haveI hanti : IsAntisymm String (fun a b => a ≤ b) :=
    ⟨fun a b h1 h2 => le_antisymm h1 h2⟩
  haveI htot : IsTotal String (fun a b => a ≤ b) := ⟨fun a b => le_total a b⟩
  haveI htra : IsTrans String (fun a b => a ≤ b) :=
    ⟨fun a b c h1 h2 => le_trans h1 h2⟩
  have hkeys : sortedKeys a1 = sortedKeys a2 := by
    unfold sortedKeys
    exact List.eq_of_perm_of_sorted
      ((List.perm_insertionSort _ _).trans
        ((h.map Prod.fst).trans (List.perm_insertionSort _ _).symm))
      (List.sorted_insertionSort _ _)
      (List.sorted_insertionSort _ _)
  unfold canonArgs
  rw [hkeys]
  apply List.map_congr_left
  intro k _
  simp [aget, dfind_perm a1 a2 h hnd k]

/-- Canonically equal argument dicts produce identical cache keys. -/
theorem cacheKey_perm (kind server name : String)
    (a1 a2 : List (String × String))
    (h : a1.Perm a2) (hnd : (a1.map Prod.fst).Nodup) :
    cacheKey kind server name (some a1)
      = cacheKey kind server name (some a2) := by
  simp only [cacheKey, dumpArgs]
  rw [canonArgs_perm a1 a2 h hnd]

/-- Popping a key makes its lookup miss. -/
theorem dfind_dpop {α : Type} (m : List (String × α)) (k : String) :
    dfind (dpop m k) k = none := by
  rw [dfind_eq_none_iff]
  intro p hp
  exact of_decide_eq_true (List.mem_filter.mp hp).2

/-- A closed circuit stays closed at any later timestamp. -/
theorem circuitOpen_mono (st : CState) (key : String) (now now2 : Nat)
    (h : circuitOpen st key now = false) (hle : now ≤ now2) :
    circuitOpen st key now2 = false := by
  unfold circuitOpen at h ⊢
  cases hf : dfind st.circuitOpenUntil key with
  | none => rfl
  | some u =>
      rw [hf] at h
      dsimp only at h ⊢
      cases hu : (u != 0) with
      | false => simp [hu]
      | true =>
          rw [hu] at h
          simp only [Bool.true_and] at h ⊢
          simp only [decide_eq_false_iff_not] at h ⊢
          omega

/-- Post-state of a successful pass through the retry loop of `call_tool`:
the result is cached under the key, the circuit entry for the key is gone
(`_record_success` pops it), and the cancellation flag is untouched. -/
theorem callToolLoop_ok (env : CEnv) (now : Nat) (key name : String) :
    ∀ (n : Nat) (st : CState) (r : PyVal) (st1 : CState),
      callToolLoop env now key name n st = (.ok (some r), st1) →
      dfind st1.cache key = some r
      ∧ dfind st1.circuitOpenUntil key = none
      ∧ st1.cancelled = st.cancelled := by
  intro n
  induction n with
  | zero => intro st r st1 h; simp [callToolLoop] at h
  | succ m ih =>
      intro st r st1 h
      simp only [callToolLoop] at h
      cases htr : env.transport st.dispatchCount with
      | ok v =>
          rw [htr] at h
          dsimp only at h
          rw [Prod.ext_iff] at h
          obtain ⟨h1, h2⟩ := h
          dsimp only at h1 h2
          have hv : v = r := by simpa using h1
          subst hv
          rw [← h2]
          refine ⟨?_, ?_, ?_⟩
          · simp only [addToContext, setCache, recordSuccess, dispatchStep,
              ENABLE_CACHE, if_true]
            split <;> exact dfind_dset_self _ _ _
          · simp only [addToContext, setCache, recordSuccess, dispatchStep,
              ENABLE_CACHE, if_true]
            split <;> exact dfind_dpop _ _
          · simp only [addToContext, setCache, recordSuccess, dispatchStep,
              ENABLE_CACHE, if_true]
            split <;> rfl
      | permE msg => rw [htr] at h; simp at h
      | timeoutE =>
          rw [htr] at h
          dsimp only at h
          by_cases hm : m = 0
          · rw [hm] at h; simp at h
          · rw [if_neg hm] at h
            have hres := ih _ r st1 h
            refine ⟨hres.1, hres.2.1, ?_⟩
            rw [hres.2.2]
            simp [recordFailure_cancelled, dispatchStep]
      | exc msg =>
          rw [htr] at h
          dsimp only at h
          by_cases hm : m = 0
          · rw [hm] at h; simp at h
          · rw [if_neg hm] at h
            have hres := ih _ r st1 h
            refine ⟨hres.1, hres.2.1, ?_⟩
            rw [hres.2.2]
            simp [recordFailure_cancelled, dispatchStep]

/-- C7 amended: two successive `call_tool` invocations with the same
server, name and canonically equal argument dicts (order-irrelevant,
duplicate-free keys), the first succeeding with a truthy result, no
intervening call, and a non-decreasing clock: the second invocation
returns the very same result object, leaves the state untouched and
performs zero transport activity. (The truthiness proviso is forced: the
cache lookup of the source tests `if cached:`, so a falsy first result is
not served from cache — see the counterexample.) -/
theorem c7_cache_idempotence_amended (env env2 : CEnv) (now now2 : Nat)
    (st : CState) (server name : String)
    (a1 a2 : List (String × String)) (r : PyVal)
    (hperm : a1.Perm a2) (hnd : (a1.map Prod.fst).Nodup)
    (hnow : now ≤ now2)
    (h1 : (callTool env now st server name a1).1 = .ok (some r))
    (htru : pyTruthy r = true) :
    callTool env2 now2 (callTool env now st server name a1).2 server name a2
      = (.ok (some r), (callTool env now st server name a1).2) := by
  have hkey : cacheKey "tool" server name (some a2)
      = cacheKey "tool" server name (some a1) :=
    (cacheKey_perm "tool" server name a1 a2 hperm hnd).symm
  by_cases hc : st.cancelled = true
  · simp [callTool, hc] at h1
  · rw [Bool.not_eq_true] at hc
    by_cases hal : isToolAllowed server name = true
    · by_cases hco : circuitOpen st (cacheKey "tool" server name (some a1))
          now = true
      · simp [callTool, hc, hal, hco] at h1
      · rw [Bool.not_eq_true] at hco
        cases hcache : getCached st (cacheKey "tool" server name (some a1))
          with
        | some v =>
            by_cases htv : pyTruthy v = true
            · have hred : callTool env now st server name a1
                  = (.ok (some v), st) := by
                simp [callTool, hc, hal, hco, hcache, htv]
              have hvr : v = r := by
                rw [hred] at h1
                simpa using h1
              subst hvr
              rw [hred]
              have hco2 : circuitOpen st
                  (cacheKey "tool" server name (some a1)) now2 = false :=
                circuitOpen_mono st _ now now2 hco hnow
              simp [callTool, hc, hal, hkey, hco2, hcache, htv]
            · have hred : callTool env now st server name a1
                  = callToolLoop env now
                      (cacheKey "tool" server name (some a1)) name
                      (MAX_RETRIES + 1) st := by
                simp [callTool, hc, hal, hco, hcache, htv]
              rw [hred] at h1 ⊢
              have hP : callToolLoop env now
                  (cacheKey "tool" server name (some a1)) name
                  (MAX_RETRIES + 1) st
                  = (.ok (some r),
                     (callToolLoop env now
                       (cacheKey "tool" server name (some a1)) name
                       (MAX_RETRIES + 1) st).2) := by
                rw [← h1]
              have hfacts := callToolLoop_ok env now
                (cacheKey "tool" server name (some a1)) name
                (MAX_RETRIES + 1) st r _ hP
              have hcirc2 : circuitOpen
                  (callToolLoop env now
                    (cacheKey "tool" server name (some a1)) name
                    (MAX_RETRIES + 1) st).2
                  (cacheKey "tool" server name (some a1)) now2 = false := by
                unfold circuitOpen
                rw [hfacts.2.1]
              have hcan2 : (callToolLoop env now
                  (cacheKey "tool" server name (some a1)) name
                  (MAX_RETRIES + 1) st).2.cancelled = false := by
                rw [hfacts.2.2]; exact hc
              have hcache2 : getCached (callToolLoop env now
                  (cacheKey "tool" server name (some a1)) name
                  (MAX_RETRIES + 1) st).2
                  (cacheKey "tool" server name (some a1)) = some r := by
                simp [getCached, ENABLE_CACHE, hfacts.1]
              simp [callTool, hcan2, hal, hkey, hcirc2, hcache2, htru]
        | none =>
            have hred : callTool env now st server name a1
                = callToolLoop env now
                    (cacheKey "tool" server name (some a1)) name
                    (MAX_RETRIES + 1) st := by
              simp [callTool, hc, hal, hco, hcache]
            rw [hred] at h1 ⊢
            have hP : callToolLoop env now
                (cacheKey "tool" server name (some a1)) name
                (MAX_RETRIES + 1) st
                = (.ok (some r),
                   (callToolLoop env now
                     (cacheKey "tool" server name (some a1)) name
                     (MAX_RETRIES + 1) st).2) := by
              rw [← h1]
            have hfacts := callToolLoop_ok env now
              (cacheKey "tool" server name (some a1)) name
              (MAX_RETRIES + 1) st r _ hP
            have hcirc2 : circuitOpen
                (callToolLoop env now
                  (cacheKey "tool" server name (some a1)) name
                  (MAX_RETRIES + 1) st).2
                (cacheKey "tool" server name (some a1)) now2 = false := by
              unfold circuitOpen
              rw [hfacts.2.1]
            have hcan2 : (callToolLoop env now
                (cacheKey "tool" server name (some a1)) name
                (MAX_RETRIES + 1) st).2.cancelled = false := by
              rw [hfacts.2.2]; exact hc
            have hcache2 : getCached (callToolLoop env now
                (cacheKey "tool" server name (some a1)) name
                (MAX_RETRIES + 1) st).2
                (cacheKey "tool" server name (some a1)) = some r := by
              simp [getCached, ENABLE_CACHE, hfacts.1]
            simp [callTool, hcan2, hal, hkey, hcirc2, hcache2, htru]
    · simp [callTool, hc, hal] at h1

/-- Witness for C7 amended: the same tool called twice with the two
argument orders; the second call is answered from the cache with the
identical result and the same state. -/
theorem c7_cache_idempotence_amended_witness :
    ([("a", "1"), ("b", "2")] : List (String × String)).Perm
        [("b", "2"), ("a", "1")]
    ∧ (callTool
        { transport := fun _ =>
            .ok (PyVal.pydict [("success", PyVal.pybool true)]) }
        5 {} "terminal" "list_directory" [("a", "1"), ("b", "2")]).1
      = .ok (some (PyVal.pydict [("success", PyVal.pybool true)]))
    ∧ callTool
        { transport := fun _ => .exc "transport must not be touched" } 6
        (callTool
          { transport := fun _ =>
              .ok (PyVal.pydict [("success", PyVal.pybool true)]) }
          5 {} "terminal" "list_directory" [("a", "1"), ("b", "2")]).2
        "terminal" "list_directory" [("b", "2"), ("a", "1")]
      = (.ok (some (PyVal.pydict [("success", PyVal.pybool true)])),
         (callTool
           { transport := fun _ =>
               .ok (PyVal.pydict [("success", PyVal.pybool true)]) }
           5 {} "terminal" "list_directory" [("a", "1"), ("b", "2")]).2) :=
  ⟨by decide, rfl,
   c7_cache_idempotence_amended
     { transport := fun _ =>
         .ok (PyVal.pydict [("success", PyVal.pybool true)]) }
     { transport := fun _ => .exc "transport must not be touched" }
     5 6 {} "terminal" "list_directory"
     [("a", "1"), ("b", "2")] [("b", "2"), ("a", "1")]
     (PyVal.pydict [("success", PyVal.pybool true)])
     (by decide) (by decide) (by omega) rfl rfl⟩

end S2P
